import Mathlib

/-!
Streaming peak picker (`Case12-peakPicker/peakPicker.cpp`).

A shallow embedding of the HLS function `peakPicker` and of the types of
`peakPicker.hpp`, followed by the properties established for it.

Modelling conventions.

* `data_t` and `threshold_t` are `ap_fixed<24,8>`.  A value is represented by
  its raw two's-complement integer (the value times `2^16`); the code only
  compares such values and stores the literal `0`, and comparison of
  `ap_fixed` values of one format is comparison of the raw integers.
* `location_t` is `ap_uint<16>` and `count_t` is `ap_uint<8>`: naturals, with
  an explicit reduction modulo `2^16` and `2^8` where the code assigns to
  them.
* An `hls::stream` is a FIFO, modelled by the list of its elements, head
  first.  A blocking `read()` on an empty stream never returns; the model
  yields `none` for such a run.
* An `int` is modelled by an unbounded integer.  No `int` computation of the
  code overflows when `length` and the vector sizes are below `2^31`, which
  every concrete input used below satisfies.
* The writes of one run to `locations_stream` and `count_stream` are recorded
  in the order in which they happen, in one list; the contents added to each
  of the two output streams are the projections of that list.
-/

namespace PeakPicker

/-! ## Types and constants of `peakPicker.hpp` -/

/-- Raw integer of an `ap_fixed<24,8>` cross-correlation value. -/
abbrev data_t := Int

/-- Raw integer of an `ap_fixed<24,8>` threshold value. -/
abbrev threshold_t := Int

/-- Value of an `ap_uint<16>` peak location. -/
abbrev location_t := Nat

/-- Value of an `ap_uint<8>` peak count. -/
abbrev count_t := Nat

/-- The `#define WINDOW_LENGTH 11`. -/
def WINDOW_LENGTH : Nat := 11

/-- The `#define MIDDLE_INDEX 5`. -/
def MIDDLE_INDEX : Nat := 5

/-- Raw `ap_fixed<24,8>` representation of the integer `n` (`-128 ≤ n < 128`). -/
def fixed (n : Int) : data_t := n * 65536

/-- One write to an output stream of `peakPicker`. -/
inductive Write where
  | location (l : location_t)
  | count (c : count_t)
  deriving DecidableEq, Repr

/-- The values a sequence of writes puts on `locations_stream`, in order. -/
def locationsOf : List Write → List location_t
  | [] => []
  | Write.location l :: ws => l :: locationsOf ws
  | Write.count _ :: ws => locationsOf ws

/-- The values a sequence of writes puts on `count_stream`, in order. -/
def countsOf : List Write → List count_t
  | [] => []
  | Write.location _ :: ws => countsOf ws
  | Write.count c :: ws => c :: countsOf ws

/-- State of a run of `peakPicker`: the two input streams, the local variables
of the function, and the writes made so far to the two output streams. -/
structure State where
  xcorr_stream : List data_t
  threshold_stream : List threshold_t
  window_buffer : List data_t
  threshold_buffer : List threshold_t
  peak_count : count_t
  writes : List Write
  deriving DecidableEq, Repr

/-- Contents written to `locations_stream` by the run that ended in `s`. -/
def State.locations_stream (s : State) : List location_t := locationsOf s.writes

/-- Contents written to `count_stream` by the run that ended in `s`. -/
def State.count_stream (s : State) : List count_t := countsOf s.writes

/-! ## The function body -/

/-- `INIT_LOOP` (lines 24-28): `for (i = 0; i < WINDOW_LENGTH; i++)` storing `0`
at index `i` of both buffers.  `INIT_LOOP n s` runs the iterations
`i = 0, …, n-1`. -/
def INIT_LOOP : Nat → State → State
  | 0, s => s
  | i + 1, s =>
    let s' := INIT_LOOP i s
    { s' with window_buffer := s'.window_buffer.set i 0,
              threshold_buffer := s'.threshold_buffer.set i 0 }

/-- `SHIFT_LOOP` (lines 39-43): `for (i = WINDOW_LENGTH-1; i > 0; i--)` copying
index `i-1` to index `i` in both buffers.  `SHIFT_LOOP n s` runs the
iterations `i = n, n-1, …, 1`. -/
def SHIFT_LOOP : Nat → State → State
  | 0, s => s
  | i + 1, s =>
    SHIFT_LOOP i
      { s with window_buffer := s.window_buffer.set (i + 1) (s.window_buffer.getD i 0),
               threshold_buffer :=
                 s.threshold_buffer.set (i + 1) (s.threshold_buffer.getD i 0) }

/-- `PEAK_CHECK_LOOP` (lines 62-69): `PEAK_CHECK_LOOP n w m is_peak` runs the
iterations `i = 0, …, n-1`, clearing `is_peak` when `i != MIDDLE_INDEX` and
`w[i] > m`. -/
def PEAK_CHECK_LOOP (window_buffer : List data_t) (middle_sample : data_t) :
    Nat → Bool → Bool
  | 0, is_peak => is_peak
  | i + 1, is_peak =>
    let is_peak' := PEAK_CHECK_LOOP window_buffer middle_sample i is_peak
    if i ≠ MIDDLE_INDEX then
      if window_buffer.getD i 0 > middle_sample then false else is_peak'
    else is_peak'

/-- Lines 39-45: `SHIFT_LOOP`, then the stores of the new sample and the new
threshold at index `0`. -/
def absorb (new_sample : data_t) (new_threshold : threshold_t) (s : State) : State :=
  let s1 := SHIFT_LOOP (WINDOW_LENGTH - 1) s
  { s1 with window_buffer := s1.window_buffer.set 0 new_sample,
            threshold_buffer := s1.threshold_buffer.set 0 new_threshold }

/-- Lines 48-77: the peak test of the iteration with loop counter `index`, and
the write of the location when it succeeds.  The test `index >= WINDOW_LENGTH - 1`
makes `index - MIDDLE_INDEX + 1` positive, so the subtraction on naturals is
exact; the assignment to `location_t` keeps the low 16 bits. -/
def detect (index : Nat) (s : State) : State :=
  if index ≥ WINDOW_LENGTH - 1 then
    let candidate_location : location_t := (index - MIDDLE_INDEX + 1) % 2 ^ 16
    let middle_sample := s.window_buffer.getD MIDDLE_INDEX 0
    let middle_threshold := s.threshold_buffer.getD MIDDLE_INDEX 0
    let threshold_check : Bool := decide (middle_sample ≥ middle_threshold)
    if threshold_check then
      let is_peak := PEAK_CHECK_LOOP s.window_buffer middle_sample WINDOW_LENGTH true
      if is_peak then
        { s with writes := s.writes ++ [Write.location candidate_location],
                 peak_count := (s.peak_count + 1) % 2 ^ 8 }
      else s
    else s
  else s

/-- Lines 38-77: the part of one `MAIN_LOOP` iteration that follows the two
stream reads, for loop counter `index` and the values just read. -/
def process (index : Nat) (new_sample : data_t) (new_threshold : threshold_t)
    (s : State) : State :=
  detect index (absorb new_sample new_threshold s)

/-- One iteration of `MAIN_LOOP` (lines 32-77): read one sample, then one
threshold, then `process` them.  `none` when a read finds its stream empty. -/
def MAIN_LOOP_body (index : Nat) (s : State) : Option State :=
  match s.xcorr_stream with
  | [] => none
  | new_sample :: xcorr_rest =>
    match s.threshold_stream with
    | [] => none
    | new_threshold :: threshold_rest =>
      some (process index new_sample new_threshold
        { s with xcorr_stream := xcorr_rest, threshold_stream := threshold_rest })

/-- The iterations `index, index+1, …, index+n-1` of `MAIN_LOOP`. -/
def MAIN_LOOP_from : Nat → Nat → State → Option State
  | _, 0, s => some s
  | index, n + 1, s =>
    match MAIN_LOOP_body index s with
    | none => none
    | some s' => MAIN_LOOP_from (index + 1) n s'

/-- `MAIN_LOOP` (line 31): `for (int index = 0; index < length; index++)`.  The
loop runs `max length 0` iterations; as `index < length` holds in the body,
`index++` never overflows. -/
def MAIN_LOOP (length : Int) (s : State) : Option State :=
  MAIN_LOOP_from 0 length.toNat s

/-- State of `peakPicker` after the declarations of lines 13-21 and before
`INIT_LOOP`: the streams as passed, `peak_count = 0`, nothing written yet, and
the two arrays of `WINDOW_LENGTH` cells, which are declared without
initialiser, holding the indeterminate contents `window_init` and
`threshold_init`. -/
def uninitialised (window_init : List data_t) (threshold_init : List threshold_t)
    (xcorr_stream : List data_t) (threshold_stream : List threshold_t) : State :=
  { xcorr_stream := xcorr_stream
    threshold_stream := threshold_stream
    window_buffer := window_init
    threshold_buffer := threshold_init
    peak_count := 0
    writes := [] }

/-- The state `uninitialised` for one choice of the indeterminate array
contents.  `INIT_LOOP` overwrites all `WINDOW_LENGTH` cells of both arrays, so
the state it produces is the same for every choice
(`INIT_LOOP_uninitialised`), and so is the run (`peakPicker_initial_content`). -/
def entry (xcorr_stream : List data_t) (threshold_stream : List threshold_t) : State :=
  uninitialised (List.replicate WINDOW_LENGTH 0) (List.replicate WINDOW_LENGTH 0)
    xcorr_stream threshold_stream

/-- The function `peakPicker` (lines 3-82): `INIT_LOOP`, `MAIN_LOOP`, then the
write of `peak_count` to `count_stream`.  The result is the final state, or
`none` when a stream read blocks for ever. -/
def peakPicker (xcorr_stream : List data_t) (threshold_stream : List threshold_t)
    (length : Int) : Option State :=
  match MAIN_LOOP length (INIT_LOOP WINDOW_LENGTH (entry xcorr_stream threshold_stream)) with
  | none => none
  | some s => some { s with writes := s.writes ++ [Write.count s.peak_count] }

/-! ## The test bench (`peakPicker_tb.cpp`) -/

/-- The loop of lines 71-77 of `peakPicker_tb.cpp`:
`for (int i = 0; i < peak_count; i++)`, reading one location when
`locations_stream` is not empty and appending `int(loc)` to `peak_locations`.
`read_locations n ls acc` runs `n` iterations on the stream content `ls` with
`peak_locations = acc`, and returns the stream content left and
`peak_locations`. -/
def read_locations : Nat → List location_t → List Int → List location_t × List Int
  | 0, locations_stream, peak_locations => (locations_stream, peak_locations)
  | n + 1, locations_stream, peak_locations =>
    match locations_stream with
    | [] => read_locations n [] peak_locations
    | loc :: rest => read_locations n rest (peak_locations ++ [(loc : Int)])

/-- Lines 45-77 of `main` in `peakPicker_tb.cpp`, on the two data vectors after
their conversion to `data_t` and `threshold_t`: the size check, the fill of
the two input streams, the call of `peakPicker` with `length` the common
size, the read of `peak_count` from `count_stream` and the loop collecting
`peak_locations`.  The result is `peak_locations`, the list that lines 80-87
write to the output file one value per line; `none` when the sizes differ
(`return -1`) or a read blocks.  The four streams are fresh and empty before
the fill; `int length = xcorr_data.size()` is exact for sizes below `2^31`. -/
def main (xcorr_data : List data_t) (threshold_data : List threshold_t) : Option (List Int) :=
  if xcorr_data.length ≠ threshold_data.length then none
  else
    let length : Int := (xcorr_data.length : Int)
    match peakPicker xcorr_data threshold_data length with
    | none => none
    | some s =>
      match s.count_stream with
      | [] => none
      | peak_count :: _ => some (read_locations peak_count s.locations_stream []).2

/-! ## Auxiliary functions used in the proofs -/

/-- Cell `i` of a buffer after `k` values of `xs` have been absorbed: the value
absorbed `i` steps before the latest one, or the initial `0`. -/
def cell (xs : List Int) (k i : Nat) : Int :=
  if i < k then xs.getD (k - 1 - i) 0 else 0

/-- Content of a buffer after `k` values of `xs` have been absorbed. -/
def winAt (xs : List Int) (k : Nat) : List Int :=
  (List.range WINDOW_LENGTH).map (cell xs k)

/-- The test made in the iteration `idx` of `MAIN_LOOP`, read on the input
sequences: the window is full, the centre passes its threshold, and no cell
of the window exceeds the centre. -/
def peakAt (xs ts : List Int) (idx : Nat) : Prop :=
  10 ≤ idx ∧ ts.getD (idx - 5) 0 ≤ xs.getD (idx - 5) 0 ∧
    ∀ i, i < 11 → xs.getD (idx - i) 0 ≤ xs.getD (idx - 5) 0

instance (xs ts : List Int) (idx : Nat) : Decidable (peakAt xs ts idx) := by
  unfold peakAt; infer_instance

/-- Loop counters below `k` at which a location is written. -/
def hits (xs ts : List Int) (k : Nat) : List Nat :=
  (List.range k).filter (fun idx => decide (peakAt xs ts idx))

/-- Locations written during the first `k` iterations of `MAIN_LOOP`. -/
def emitted (xs ts : List Int) (k : Nat) : List location_t :=
  (hits xs ts k).map (fun idx => (idx - 4) % 65536)

/-- State after `k` iterations of `MAIN_LOOP` on the streams `xs`, `ts`. -/
def stateAt (xs ts : List Int) (k : Nat) : State :=
  { xcorr_stream := xs.drop k
    threshold_stream := ts.drop k
    window_buffer := winAt xs k
    threshold_buffer := winAt ts k
    peak_count := (emitted xs ts k).length % 256
    writes := (emitted xs ts k).map Write.location }

/-- The state `s` with its two input streams replaced. -/
def setStreams (s : State) (xs : List data_t) (ts : List threshold_t) : State :=
  { s with xcorr_stream := xs, threshold_stream := ts }

/-! ## Lemmas on the loops -/

theorem winAt_eq (xs : List Int) (k : Nat) :
    winAt xs k = [cell xs k 0, cell xs k 1, cell xs k 2, cell xs k 3, cell xs k 4,
      cell xs k 5, cell xs k 6, cell xs k 7, cell xs k 8, cell xs k 9, cell xs k 10] := rfl

theorem cell_succ_zero (xs : List Int) (k : Nat) : cell xs (k + 1) 0 = xs.getD k 0 := by
  simp [cell]

theorem cell_succ_succ (xs : List Int) (k i : Nat) : cell xs (k + 1) (i + 1) = cell xs k i := by
  unfold cell
  by_cases h : i < k
  · have h1 : i + 1 < k + 1 := by omega
    have h2 : k + 1 - 1 - (i + 1) = k - 1 - i := by omega
    rw [if_pos h1, if_pos h, h2]
  · have h1 : ¬ i + 1 < k + 1 := by omega
    rw [if_neg h1, if_neg h]

theorem cell_of_le (xs : List Int) (k i : Nat) (h : i ≤ k) :
    cell xs (k + 1) i = xs.getD (k - i) 0 := by
  unfold cell
  have h1 : i < k + 1 := by omega
  have h2 : k + 1 - 1 - i = k - i := by omega
  simp [h1, h2]

theorem INIT_LOOP_entry (xs ts : List Int) :
    INIT_LOOP WINDOW_LENGTH (entry xs ts) = stateAt xs ts 0 := by
  simp [INIT_LOOP, entry, uninitialised, stateAt, WINDOW_LENGTH, winAt_eq, cell, emitted, hits]

theorem eq_eleven (l : List Int) (h : l.length = 11) :
    ∃ a0 a1 a2 a3 a4 a5 a6 a7 a8 a9 a10, l = [a0, a1, a2, a3, a4, a5, a6, a7, a8, a9, a10] := by
  rcases l with _ | ⟨a0, l⟩
  · simp at h
  rcases l with _ | ⟨a1, l⟩
  · simp at h
  rcases l with _ | ⟨a2, l⟩
  · simp at h
  rcases l with _ | ⟨a3, l⟩
  · simp at h
  rcases l with _ | ⟨a4, l⟩
  · simp at h
  rcases l with _ | ⟨a5, l⟩
  · simp at h
  rcases l with _ | ⟨a6, l⟩
  · simp at h
  rcases l with _ | ⟨a7, l⟩
  · simp at h
  rcases l with _ | ⟨a8, l⟩
  · simp at h
  rcases l with _ | ⟨a9, l⟩
  · simp at h
  rcases l with _ | ⟨a10, l⟩
  · simp at h
  rcases l with _ | ⟨b, l⟩
  · exact ⟨a0, a1, a2, a3, a4, a5, a6, a7, a8, a9, a10, rfl⟩
  · simp only [List.length_cons] at h
    omega

/-- `INIT_LOOP` stores `0` in every cell of both arrays, whatever they held. -/
theorem INIT_LOOP_uninitialised (window_init threshold_init xs ts : List Int)
    (hw : window_init.length = WINDOW_LENGTH) (ht : threshold_init.length = WINDOW_LENGTH) :
    INIT_LOOP WINDOW_LENGTH (uninitialised window_init threshold_init xs ts) =
      stateAt xs ts 0 := by
  obtain ⟨a0, a1, a2, a3, a4, a5, a6, a7, a8, a9, a10, rfl⟩ := eq_eleven window_init hw
  obtain ⟨b0, b1, b2, b3, b4, b5, b6, b7, b8, b9, b10, rfl⟩ := eq_eleven threshold_init ht
  simp [INIT_LOOP, uninitialised, stateAt, WINDOW_LENGTH, winAt_eq, cell, emitted, hits]

/-- The run does not depend on what the two arrays hold before `INIT_LOOP`. -/
theorem peakPicker_initial_content (window_init threshold_init xs ts : List Int)
    (length : Int)
    (hw : window_init.length = WINDOW_LENGTH) (ht : threshold_init.length = WINDOW_LENGTH) :
    (match MAIN_LOOP length
        (INIT_LOOP WINDOW_LENGTH (uninitialised window_init threshold_init xs ts)) with
      | none => none
      | some s => some { s with writes := s.writes ++ [Write.count s.peak_count] }) =
      peakPicker xs ts length := by
  unfold peakPicker
  rw [INIT_LOOP_uninitialised window_init threshold_init xs ts hw ht, INIT_LOOP_entry]

theorem PEAK_CHECK_LOOP_eq_true (w : List Int) (m : Int) (n : Nat) (b : Bool) :
    PEAK_CHECK_LOOP w m n b = true ↔
      b = true ∧ ∀ i, i < n → i ≠ MIDDLE_INDEX → w.getD i 0 ≤ m := by
  induction n with
  | zero => simp [PEAK_CHECK_LOOP]
  | succ n ih =>
    simp only [PEAK_CHECK_LOOP]
    constructor
    · intro h
      by_cases hn : n ≠ MIDDLE_INDEX
      · rw [if_pos hn] at h
        by_cases hw : w.getD n 0 > m
        · rw [if_pos hw] at h; exact absurd h (by simp)
        · rw [if_neg hw] at h
          obtain ⟨hb, hall⟩ := ih.mp h
          refine ⟨hb, fun i hi hne => ?_⟩
          rcases Nat.lt_succ_iff_lt_or_eq.mp hi with h1 | h1
          · exact hall i h1 hne
          · subst h1; exact not_lt.mp hw
      · rw [if_neg hn] at h
        obtain ⟨hb, hall⟩ := ih.mp h
        refine ⟨hb, fun i hi hne => ?_⟩
        rcases Nat.lt_succ_iff_lt_or_eq.mp hi with h1 | h1
        · exact hall i h1 hne
        · subst h1; exact absurd hne hn
    · rintro ⟨hb, hall⟩
      have hrec : PEAK_CHECK_LOOP w m n b = true :=
        ih.mpr ⟨hb, fun i hi hne => hall i (Nat.lt_succ_of_lt hi) hne⟩
      by_cases hn : n ≠ MIDDLE_INDEX
      · rw [if_pos hn]
        have hw : ¬ w.getD n 0 > m := not_lt.mpr (hall n (Nat.lt_succ_self n) hn)
        rw [if_neg hw]; exact hrec
      · rw [if_neg hn]; exact hrec

theorem MAIN_LOOP_from_succ (n : Nat) : ∀ (index : Nat) (s : State),
    MAIN_LOOP_from index (n + 1) s =
      (MAIN_LOOP_from index n s).bind (MAIN_LOOP_body (index + n)) := by
  induction n with
  | zero =>
    intro index s
    simp only [MAIN_LOOP_from, Nat.add_zero, Option.some_bind]
    cases MAIN_LOOP_body index s <;> rfl
  | succ n ih =>
    intro index s
    rw [MAIN_LOOP_from]
    cases h : MAIN_LOOP_body index s with
    | none => simp [MAIN_LOOP_from, h]
    | some s' =>
      simp only
      rw [ih (index + 1) s']
      conv_rhs => rw [MAIN_LOOP_from, h]
      simp only
      have : index + 1 + n = index + (n + 1) := by omega
      rw [this]

theorem winAt_getD (xs : List Int) (k i : Nat) (h : i < 11) :
    (winAt xs k).getD i 0 = cell xs k i := by
  rw [winAt_eq]
  interval_cases i <;> rfl

theorem absorb_winAt (xs ts : List Int) (k : Nat) (s : State)
    (hw : s.window_buffer = winAt xs k) (ht : s.threshold_buffer = winAt ts k) :
    absorb (xs.getD k 0) (ts.getD k 0) s =
      { s with window_buffer := winAt xs (k + 1), threshold_buffer := winAt ts (k + 1) } := by
  cases s
  simp only at hw ht
  subst hw ht
  simp only [absorb, SHIFT_LOOP, WINDOW_LENGTH, winAt_eq, cell_succ_zero, cell_succ_succ]
  rfl

theorem hits_succ (xs ts : List Int) (k : Nat) :
    hits xs ts (k + 1) = hits xs ts k ++ (if peakAt xs ts k then [k] else []) := by
  unfold hits
  rw [List.range_succ, List.filter_append]
  by_cases h : peakAt xs ts k <;> simp [List.filter, h]

theorem emitted_succ (xs ts : List Int) (k : Nat) :
    emitted xs ts (k + 1) =
      emitted xs ts k ++ (if peakAt xs ts k then [(k - 4) % 65536] else []) := by
  unfold emitted
  rw [hits_succ, List.map_append]
  by_cases h : peakAt xs ts k <;> simp [h]

theorem peak_test_iff (xs ts : List Int) (k : Nat) (hk : 10 ≤ k) :
    (decide ((winAt xs (k + 1)).getD MIDDLE_INDEX 0 ≥ (winAt ts (k + 1)).getD MIDDLE_INDEX 0)
        = true ∧
      PEAK_CHECK_LOOP (winAt xs (k + 1)) ((winAt xs (k + 1)).getD MIDDLE_INDEX 0)
        WINDOW_LENGTH true = true) ↔ peakAt xs ts k := by
  have hm : ∀ zs : List Int, (winAt zs (k + 1)).getD MIDDLE_INDEX 0 = zs.getD (k - 5) 0 := by
    intro zs
    rw [MIDDLE_INDEX, winAt_getD zs (k + 1) 5 (by decide), cell_of_le zs k 5 (by omega)]
  rw [hm xs, hm ts, PEAK_CHECK_LOOP_eq_true, decide_eq_true_iff]
  unfold peakAt
  constructor
  · rintro ⟨h1, -, h2⟩
    refine ⟨hk, h1, fun i hi => ?_⟩
    by_cases h5 : i = 5
    · subst h5; exact le_refl _
    · have := h2 i hi h5
      rwa [winAt_getD xs (k + 1) i hi, cell_of_le xs k i (by omega)] at this
  · rintro ⟨-, h1, h2⟩
    refine ⟨h1, rfl, fun i hi _ => ?_⟩
    have hi' : i < 11 := hi
    rw [winAt_getD xs (k + 1) i hi', cell_of_le xs k i (by omega)]
    exact h2 i hi'

theorem process_stateAt (xs ts : List Int) (k : Nat) :
    process k (xs.getD k 0) (ts.getD k 0)
        { stateAt xs ts k with
            xcorr_stream := xs.drop (k + 1), threshold_stream := ts.drop (k + 1) } =
      stateAt xs ts (k + 1) := by
  unfold process
  rw [absorb_winAt xs ts k _ rfl rfl]
  unfold detect
  simp only [stateAt]
  by_cases hk : 10 ≤ k
  · have hk' : k ≥ WINDOW_LENGTH - 1 := hk
    rw [if_pos hk']
    have hloc : (k - MIDDLE_INDEX + 1) % 2 ^ 16 = (k - 4) % 65536 := by
      have : k - MIDDLE_INDEX + 1 = k - 4 := by unfold MIDDLE_INDEX; omega
      rw [this]; rfl
    by_cases hp : peakAt xs ts k
    · obtain ⟨h1, h2⟩ := (peak_test_iff xs ts k hk).mpr hp
      rw [if_pos h1, if_pos h2, emitted_succ, if_pos hp, hloc]
      simp only [List.map_append, List.length_append, List.map_cons, List.map_nil,
        List.length_cons, List.length_nil]
      have hc : ∀ n : Nat, (n % 256 + 1) % 2 ^ 8 = (n + (0 + 1)) % 256 := by
        intro n
        have h256 : (2 : Nat) ^ 8 = 256 := rfl
        rw [h256]; omega
      rw [hc]
    · have hn := mt (peak_test_iff xs ts k hk).mp hp
      rw [emitted_succ, if_neg hp, List.append_nil]
      by_cases h1 : decide ((winAt xs (k + 1)).getD MIDDLE_INDEX 0 ≥
          (winAt ts (k + 1)).getD MIDDLE_INDEX 0) = true
      · rw [if_pos h1]
        have h2 : ¬ PEAK_CHECK_LOOP (winAt xs (k + 1))
            ((winAt xs (k + 1)).getD MIDDLE_INDEX 0) WINDOW_LENGTH true = true :=
          fun h2 => hn ⟨h1, h2⟩
        rw [if_neg h2]
      · rw [if_neg h1]
  · have hk' : ¬ k ≥ WINDOW_LENGTH - 1 := hk
    have hp : ¬ peakAt xs ts k := fun h => hk h.1
    rw [if_neg hk', emitted_succ, if_neg hp, List.append_nil]

theorem MAIN_LOOP_body_stateAt (xs ts : List Int) (k : Nat)
    (hx : k < xs.length) (ht : k < ts.length) :
    MAIN_LOOP_body k (stateAt xs ts k) = some (stateAt xs ts (k + 1)) := by
  have hxd : xs.drop k = xs.getD k 0 :: xs.drop (k + 1) := by
    rw [List.getD_eq_getElem xs 0 hx]; exact List.drop_eq_getElem_cons hx
  have htd : ts.drop k = ts.getD k 0 :: ts.drop (k + 1) := by
    rw [List.getD_eq_getElem ts 0 ht]; exact List.drop_eq_getElem_cons ht
  unfold MAIN_LOOP_body
  have e1 : (stateAt xs ts k).xcorr_stream = xs.getD k 0 :: xs.drop (k + 1) := hxd
  have e2 : (stateAt xs ts k).threshold_stream = ts.getD k 0 :: ts.drop (k + 1) := htd
  rw [e1, e2]
  simp only
  rw [process_stateAt]

theorem MAIN_LOOP_from_stateAt (xs ts : List Int) (k : Nat)
    (hx : k ≤ xs.length) (ht : k ≤ ts.length) :
    MAIN_LOOP_from 0 k (stateAt xs ts 0) = some (stateAt xs ts k) := by
  induction k with
  | zero => rfl
  | succ k ih =>
    rw [MAIN_LOOP_from_succ, ih (by omega) (by omega), Option.some_bind, Nat.zero_add]
    exact MAIN_LOOP_body_stateAt xs ts k (by omega) (by omega)

/-- Result of `peakPicker` when both streams hold at least `max length 0`
elements. -/
theorem peakPicker_eq (xs ts : List Int) (length : Int)
    (hx : length.toNat ≤ xs.length) (ht : length.toNat ≤ ts.length) :
    peakPicker xs ts length =
      some { stateAt xs ts length.toNat with
        writes := (emitted xs ts length.toNat).map Write.location ++
          [Write.count ((emitted xs ts length.toNat).length % 256)] } := by
  unfold peakPicker MAIN_LOOP
  rw [INIT_LOOP_entry, MAIN_LOOP_from_stateAt xs ts _ hx ht]
  rfl

/-! ## Lemmas on the written locations -/

theorem locationsOf_run (l : List location_t) (c : count_t) :
    locationsOf (l.map Write.location ++ [Write.count c]) = l := by
  induction l with
  | nil => rfl
  | cons a l ih => simpa [locationsOf] using ih

theorem countsOf_run (l : List location_t) (c : count_t) :
    countsOf (l.map Write.location ++ [Write.count c]) = [c] := by
  induction l with
  | nil => rfl
  | cons a l ih => simpa [countsOf] using ih

theorem mem_hits (xs ts : List Int) (k idx : Nat) :
    idx ∈ hits xs ts k ↔ idx < k ∧ peakAt xs ts idx := by
  simp [hits, List.mem_filter]

theorem hits_pairwise (xs ts : List Int) (k : Nat) :
    (hits xs ts k).Pairwise (· < ·) :=
  List.Pairwise.sublist (List.filter_sublist _) (List.pairwise_lt_range k)

theorem mem_emitted (xs ts : List Int) (k L : Nat) :
    L ∈ emitted xs ts k ↔ ∃ idx, idx < k ∧ peakAt xs ts idx ∧ (idx - 4) % 65536 = L := by
  unfold emitted
  rw [List.mem_map]
  constructor
  · rintro ⟨idx, h1, h2⟩
    exact ⟨idx, ((mem_hits xs ts k idx).mp h1).1, ((mem_hits xs ts k idx).mp h1).2, h2⟩
  · rintro ⟨idx, h1, h2, h3⟩
    exact ⟨idx, (mem_hits xs ts k idx).mpr ⟨h1, h2⟩, h3⟩

theorem mem_emitted_of_le (xs ts : List Int) (k L : Nat) (hk : k ≤ 65540) :
    L ∈ emitted xs ts k ↔ 6 ≤ L ∧ L + 5 ≤ k ∧ peakAt xs ts (L + 4) := by
  rw [mem_emitted]
  constructor
  · rintro ⟨idx, h1, h2, h3⟩
    have h10 : 10 ≤ idx := h2.1
    have hL : idx = L + 4 := by omega
    subst hL
    exact ⟨by omega, by omega, h2⟩
  · rintro ⟨h1, h2, h3⟩
    exact ⟨L + 4, by omega, h3, by omega⟩

theorem emitted_pairwise (xs ts : List Int) (k : Nat) (hk : k ≤ 65540) :
    (emitted xs ts k).Pairwise (· < ·) := by
  unfold emitted
  rw [List.pairwise_map]
  refine List.Pairwise.imp_of_mem ?_ (hits_pairwise xs ts k)
  intro a b ha hb hab
  have ha' := (mem_hits xs ts k a).mp ha
  have hb' := (mem_hits xs ts k b).mp hb
  have h10 : 10 ≤ a := ha'.2.1
  have key : ∀ m n : Nat, 10 ≤ m → m < n → n < k → (m - 4) % 65536 < (n - 4) % 65536 := by
    intro m n h1 h2 h3; omega
  exact key a b h10 hab hb'.1

theorem peakAt_window (xs ts : List Int) (L : Nat) (hL : 6 ≤ L) :
    peakAt xs ts (L + 4) ↔
      ts.getD (L - 1) 0 ≤ xs.getD (L - 1) 0 ∧
        ∀ j, L - 6 ≤ j → j ≤ L + 4 → xs.getD j 0 ≤ xs.getD (L - 1) 0 := by
  unfold peakAt
  have e : L + 4 - 5 = L - 1 := by omega
  rw [e]
  constructor
  · rintro ⟨-, h1, h2⟩
    refine ⟨h1, fun j hj1 hj2 => ?_⟩
    have := h2 (L + 4 - j) (by omega)
    have e2 : L + 4 - (L + 4 - j) = j := by omega
    rwa [e2] at this
  · rintro ⟨h1, h2⟩
    exact ⟨by omega, h1, fun i hi => h2 (L + 4 - i) (by omega) (by omega)⟩

theorem getD_replicate_zero (n j : Nat) : (List.replicate n (0 : Int)).getD j 0 = 0 := by
  by_cases h : j < n
  · rw [List.getD_eq_getElem _ _ (by simpa using h)]; simp
  · rw [List.getD_eq_default _ _ (by simpa using h)]

theorem peakAt_zeros (n idx : Nat) (h : 10 ≤ idx) :
    peakAt (List.replicate n 0) (List.replicate n 0) idx := by
  unfold peakAt
  simp only [getD_replicate_zero]
  exact ⟨h, le_refl _, fun _ _ => le_refl _⟩

/-- State in which `peakPicker` ends after `k` iterations of `MAIN_LOOP`. -/
theorem peakPicker_nat (xs ts : List Int) (N : Nat)
    (hx : N ≤ xs.length) (ht : N ≤ ts.length) :
    peakPicker xs ts (N : Int) =
      some { stateAt xs ts N with
        writes := (emitted xs ts N).map Write.location ++
          [Write.count ((emitted xs ts N).length % 256)] } := by
  have h := peakPicker_eq xs ts (N : Int) (by simpa using hx) (by simpa using ht)
  simpa using h

theorem emitted_le (xs ts : List Int) (k L : Nat) (h : L ∈ emitted xs ts k) : L + 5 ≤ k := by
  obtain ⟨idx, h1, h2, h3⟩ := (mem_emitted xs ts k L).mp h
  have h10 : 10 ≤ idx := h2.1
  have : (idx - 4) % 65536 ≤ idx - 4 := Nat.mod_le _ _
  omega

theorem emitted_zeros_last (n : Nat) (h : 10 ≤ n) :
    emitted (List.replicate (n + 1) 0) (List.replicate (n + 1) 0) (n + 1) =
      emitted (List.replicate (n + 1) 0) (List.replicate (n + 1) 0) n ++ [(n - 4) % 65536] := by
  rw [emitted_succ, if_pos (peakAt_zeros (n + 1) n h)]

theorem six_mem_emitted_zeros (n k : Nat) (h : 11 ≤ k) :
    6 ∈ emitted (List.replicate n 0) (List.replicate n 0) k :=
  (mem_emitted _ _ k 6).mpr ⟨10, by omega, peakAt_zeros n 10 (le_refl _), by decide⟩

theorem emitted_zeros_length (n k : Nat) :
    (emitted (List.replicate n 0) (List.replicate n 0) k).length = k - 10 := by
  induction k with
  | zero => rfl
  | succ k ih =>
    rw [emitted_succ, List.length_append, ih]
    by_cases h : 10 ≤ k
    · rw [if_pos (peakAt_zeros n k h), List.length_singleton]; omega
    · have hp : ¬ peakAt (List.replicate n 0) (List.replicate n 0) k := fun hp => h hp.1
      rw [if_neg hp, List.length_nil]; omega

theorem emitted_zeros_wrap (n : Nat) (h : 11 ≤ n) (hw : (n - 4) % 65536 = 0) :
    emitted (List.replicate (n + 1) 0) (List.replicate (n + 1) 0) (n + 1) =
        emitted (List.replicate (n + 1) 0) (List.replicate (n + 1) 0) n ++ [0] ∧
      6 ∈ emitted (List.replicate (n + 1) 0) (List.replicate (n + 1) 0) n := by
  refine ⟨?_, six_mem_emitted_zeros (n + 1) n h⟩
  rw [emitted_zeros_last n (by omega), hw]

/-- Final state of the run on `65541` zero samples with zero thresholds. -/
theorem peakPicker_zeros_65541 :
    peakPicker (List.replicate 65541 0) (List.replicate 65541 0) 65541 =
      some { stateAt (List.replicate 65541 0) (List.replicate 65541 0) 65541 with
        writes := (emitted (List.replicate 65541 0) (List.replicate 65541 0) 65541).map
            Write.location ++
          [Write.count
            ((emitted (List.replicate 65541 0) (List.replicate 65541 0) 65541).length % 256)] } :=
  peakPicker_nat (List.replicate 65541 0) (List.replicate 65541 0) 65541
    (by rw [List.length_replicate]) (by rw [List.length_replicate])

theorem emitted_short (xs ts : List Int) (k : Nat) (hk : k ≤ 10) : emitted xs ts k = [] := by
  rw [List.eq_nil_iff_forall_not_mem]
  intro L hL
  have h := (mem_emitted_of_le xs ts k L (by omega)).mp hL
  omega

theorem emitted_prefix (xs ts : List Int) (a b : Nat) :
    ∃ rest, emitted xs ts (a + b) = emitted xs ts a ++ rest := by
  induction b with
  | zero => exact ⟨[], by simp⟩
  | succ b ih =>
    obtain ⟨rest, h⟩ := ih
    refine ⟨rest ++ (if peakAt xs ts (a + b) then [(a + b - 4) % 65536] else []), ?_⟩
    rw [← Nat.add_assoc, emitted_succ, h, List.append_assoc]

theorem emitted_fifteen (xs ts : List Int) (h10 : peakAt xs ts 10) (h11 : peakAt xs ts 11)
    (h12 : peakAt xs ts 12) (h13 : peakAt xs ts 13) (h14 : peakAt xs ts 14) :
    emitted xs ts 15 = [6, 7, 8, 9, 10] := by
  have e : (15 : Nat) = 10 + 1 + 1 + 1 + 1 + 1 := rfl
  rw [e, emitted_succ, emitted_succ, emitted_succ, emitted_succ, emitted_succ,
    if_pos h14, if_pos h13, if_pos h12, if_pos h11, if_pos h10,
    emitted_short xs ts 10 (le_refl _)]
  rfl

/-! ## The main loop as an iteration over the pairs read -/

theorem SHIFT_LOOP_setStreams (n : Nat) : ∀ (s : State) (xs ts : List Int),
    SHIFT_LOOP n (setStreams s xs ts) = setStreams (SHIFT_LOOP n s) xs ts := by
  induction n with
  | zero => intro s xs ts; rfl
  | succ n ih =>
    intro s xs ts
    simp only [SHIFT_LOOP]
    exact ih { s with window_buffer := s.window_buffer.set (n + 1) (s.window_buffer.getD n 0),
                      threshold_buffer :=
                        s.threshold_buffer.set (n + 1) (s.threshold_buffer.getD n 0) } xs ts

theorem process_setStreams (index : Nat) (a b : Int) (s : State) (xs ts : List Int) :
    process index a b (setStreams s xs ts) = setStreams (process index a b s) xs ts := by
  unfold process absorb
  simp only [SHIFT_LOOP_setStreams]
  unfold detect
  simp only [setStreams]
  split_ifs <;> rfl

theorem setStreams_setStreams (s : State) (xs ts xs' ts' : List Int) :
    setStreams (setStreams s xs ts) xs' ts' = setStreams s xs' ts' := rfl

theorem setStreams_self (s : State) : setStreams s s.xcorr_stream s.threshold_stream = s := rfl

theorem MAIN_LOOP_from_pairs (ps : List (Int × Int)) :
    ∀ (index : Nat) (s : State) (xr tr : List Int),
      s.xcorr_stream = ps.map Prod.fst ++ xr →
      s.threshold_stream = ps.map Prod.snd ++ tr →
      MAIN_LOOP_from index ps.length s =
        some (setStreams
          (List.foldl (fun st p => process p.1 p.2.1 p.2.2 st) (setStreams s [] [])
            (List.enumFrom index ps)) xr tr) := by
  induction ps with
  | nil =>
    intro index s xr tr hx ht
    simp only [List.map_nil, List.nil_append] at hx ht
    simp only [List.length_nil, MAIN_LOOP_from, List.enumFrom_nil, List.foldl_nil,
      setStreams_setStreams]
    rw [← hx, ← ht, setStreams_self]
  | cons q ps ih =>
    intro index s xr tr hx ht
    obtain ⟨a, b⟩ := q
    simp only [List.map_cons, List.cons_append] at hx ht
    have hbody : MAIN_LOOP_body index s =
        some (process index a b (setStreams s (ps.map Prod.fst ++ xr) (ps.map Prod.snd ++ tr))) := by
      unfold MAIN_LOOP_body
      rw [hx, ht]
      rfl
    simp only [List.length_cons, MAIN_LOOP_from, hbody, List.enumFrom_cons, List.foldl_cons]
    rw [ih (index + 1) _ xr tr (by rw [process_setStreams]; rfl) (by rw [process_setStreams]; rfl)]
    rw [process_setStreams, setStreams_setStreams, process_setStreams]

theorem INIT_LOOP_setStreams (xs ts : List Int) :
    INIT_LOOP WINDOW_LENGTH (entry xs ts) =
      setStreams (INIT_LOOP WINDOW_LENGTH (entry [] [])) xs ts := rfl

/-! ## Lemmas on the test bench -/

theorem read_locations_eq (n : Nat) : ∀ (ls : List location_t) (acc : List Int),
    read_locations n ls acc = (ls.drop n, acc ++ (ls.take n).map (fun l : Nat => (l : Int))) := by
  induction n with
  | zero => intro ls acc; simp [read_locations]
  | succ n ih =>
    intro ls acc
    cases ls with
    | nil => simp [read_locations, ih]
    | cons l ls => simp [read_locations, ih]

theorem main_eq (x t : List Int) (hlen : x.length = t.length) :
    main x t = some (((emitted x t x.length).take ((emitted x t x.length).length % 256)).map
      (fun l : Nat => (l : Int))) := by
  unfold main
  rw [if_neg (not_not.mpr hlen)]
  simp only
  rw [peakPicker_nat x t x.length (le_refl _) (by omega)]
  simp only [State.count_stream, State.locations_stream, locationsOf_run, countsOf_run,
    read_locations_eq, List.nil_append]

/-! ## Lemmas on the buffers -/

theorem winAt_length (xs : List Int) (k : Nat) : (winAt xs k).length = 11 := by
  rw [winAt_eq]; rfl

theorem winAt_get (xs : List Int) (k i : Nat) (hi : i < 11) (hk : k ≤ xs.length) :
    (winAt xs k)[i]? = if i < k then xs[k - 1 - i]? else some 0 := by
  have h1 : (winAt xs k)[i]? = some (cell xs k i) := by
    rw [winAt_eq]
    interval_cases i <;> rfl
  rw [h1]
  unfold cell
  by_cases h : i < k
  · have hb : k - 1 - i < xs.length := by omega
    rw [if_pos h, if_pos h, List.getD_eq_getElem xs 0 hb, List.getElem?_eq_getElem hb]
  · rw [if_neg h, if_neg h]

theorem MAIN_LOOP_stateAt (xs ts : List Int) (k : Nat)
    (hx : k ≤ xs.length) (ht : k ≤ ts.length) :
    MAIN_LOOP (k : Int) (INIT_LOOP WINDOW_LENGTH (entry xs ts)) = some (stateAt xs ts k) := by
  unfold MAIN_LOOP
  rw [Int.toNat_ofNat, INIT_LOOP_entry]
  exact MAIN_LOOP_from_stateAt xs ts k hx ht

/-! ## Lemmas relating two runs -/

theorem hits_congr (xs ts xs' ts' : List Int) (k : Nat)
    (h : ∀ idx : Nat, idx < k → (peakAt xs ts idx ↔ peakAt xs' ts' idx)) :
    hits xs ts k = hits xs' ts' k := by
  unfold hits
  apply List.filter_congr
  intro idx hidx
  have hlt : idx < k := List.mem_range.mp hidx
  exact decide_eq_decide.mpr (h idx hlt)

theorem emitted_congr (xs ts xs' ts' : List Int) (k : Nat)
    (h : ∀ idx : Nat, idx < k → (peakAt xs ts idx ↔ peakAt xs' ts' idx)) :
    emitted xs ts k = emitted xs' ts' k := by
  unfold emitted
  rw [hits_congr xs ts xs' ts' k h]

theorem getD_take_of_lt (xs : List Int) (k j : Nat) (h : j < k) :
    (xs.take k).getD j 0 = xs.getD j 0 := by
  rw [List.getD_eq_getElem?_getD, List.getD_eq_getElem?_getD, List.getElem?_take_of_lt h]

theorem peakAt_take (xs ts : List Int) (k idx : Nat) (h : idx < k) :
    peakAt (xs.take k) (ts.take k) idx ↔ peakAt xs ts idx := by
  unfold peakAt
  rw [getD_take_of_lt xs k (idx - 5) (by omega), getD_take_of_lt ts k (idx - 5) (by omega)]
  constructor
  · rintro ⟨h1, h2, h3⟩
    refine ⟨h1, h2, fun i hi => ?_⟩
    have := h3 i hi
    rwa [getD_take_of_lt xs k (idx - i) (by omega)] at this
  · rintro ⟨h1, h2, h3⟩
    refine ⟨h1, h2, fun i hi => ?_⟩
    rw [getD_take_of_lt xs k (idx - i) (by omega)]
    exact h3 i hi

theorem emitted_filter_delay (xs ts : List Int) (k b : Nat) (hb : k + b ≤ 65540) :
    (emitted xs ts (k + b)).filter (fun L => decide (L + 5 ≤ k)) = emitted xs ts k := by
  induction b with
  | zero =>
    rw [Nat.add_zero, List.filter_eq_self]
    intro L hL
    exact decide_eq_true (emitted_le xs ts k L hL)
  | succ b ih =>
    rw [← Nat.add_assoc, emitted_succ, List.filter_append, ih (by omega)]
    by_cases hp : peakAt xs ts (k + b)
    · have h10 : 10 ≤ k + b := hp.1
      have hout : ¬ ((k + b - 4) % 65536 + 5 ≤ k) := by omega
      rw [if_pos hp, List.filter_cons_of_neg (by simpa using hout), List.filter_nil,
        List.append_nil]
    · rw [if_neg hp, List.filter_nil, List.append_nil]

theorem getD_map_of_lt (f : Int → Int) (xs : List Int) (j : Nat) (h : j < xs.length) :
    (xs.map f).getD j 0 = f (xs.getD j 0) := by
  rw [List.getD_eq_getElem _ _ (by rw [List.length_map]; exact h), List.getD_eq_getElem _ _ h,
    List.getElem_map]

theorem peakAt_map (f : Int → Int) (hf : StrictMono f) (xs ts : List Int) (idx : Nat)
    (hx : idx < xs.length) (ht : idx < ts.length) :
    peakAt (xs.map f) (ts.map f) idx ↔ peakAt xs ts idx := by
  unfold peakAt
  rw [getD_map_of_lt f xs (idx - 5) (by omega), getD_map_of_lt f ts (idx - 5) (by omega),
    hf.le_iff_le]
  constructor
  · rintro ⟨h1, h2, h3⟩
    refine ⟨h1, h2, fun i hi => ?_⟩
    have := h3 i hi
    rw [getD_map_of_lt f xs (idx - i) (by omega)] at this
    exact hf.le_iff_le.mp this
  · rintro ⟨h1, h2, h3⟩
    refine ⟨h1, h2, fun i hi => ?_⟩
    rw [getD_map_of_lt f xs (idx - i) (by omega)]
    exact hf.le_iff_le.mpr (h3 i hi)

theorem peakAt_of_threshold_eq (xs ts ts' : List Int) (idx : Nat)
    (h : ts.getD (idx - 5) 0 = ts'.getD (idx - 5) 0) :
    peakAt xs ts idx ↔ peakAt xs ts' idx := by
  unfold peakAt
  rw [h]

theorem peakAt_of_threshold_le (xs ts ts' : List Int) (idx : Nat)
    (h : ts'.getD (idx - 5) 0 ≤ ts.getD (idx - 5) 0) (hp : peakAt xs ts idx) :
    peakAt xs ts' idx :=
  ⟨hp.1, le_trans h hp.2.1, hp.2.2⟩

theorem hits_filter_of_imp (xs ts ts' : List Int) (k : Nat)
    (h : ∀ idx : Nat, idx < k → peakAt xs ts idx → peakAt xs ts' idx) :
    hits xs ts k = (hits xs ts' k).filter (fun idx => decide (peakAt xs ts idx)) := by
  unfold hits
  rw [List.filter_filter]
  apply List.filter_congr
  intro idx hidx
  have hlt : idx < k := List.mem_range.mp hidx
  by_cases hp : peakAt xs ts idx
  · simp [hp, h idx hlt hp]
  · simp [hp]

theorem emitted_sublist_of_imp (xs ts ts' : List Int) (k : Nat)
    (h : ∀ idx : Nat, idx < k → peakAt xs ts idx → peakAt xs ts' idx) :
    (emitted xs ts k).Sublist (emitted xs ts' k) := by
  unfold emitted
  rw [hits_filter_of_imp xs ts ts' k h]
  exact List.Sublist.map _ (List.filter_sublist _)

theorem emitted_filter_ne (xs ts : List Int) (k p : Nat) :
    (emitted xs ts k).filter (fun L => decide (L ≠ p + 1)) =
      ((List.range k).filter (fun idx =>
        decide ((idx - 4) % 65536 ≠ p + 1) && decide (peakAt xs ts idx))).map
        (fun idx => (idx - 4) % 65536) := by
  unfold emitted hits
  rw [List.filter_map, List.filter_filter]
  rfl

theorem peakAt_iff_off_position (xs ts ts' : List Int) (k p idx : Nat) (hk : k ≤ 65540)
    (hdiff : ∀ j : Nat, j ≠ p → ts.getD j 0 = ts'.getD j 0)
    (hidx : idx < k) (hne : (idx - 4) % 65536 ≠ p + 1) :
    peakAt xs ts idx ↔ peakAt xs ts' idx := by
  by_cases h10 : 10 ≤ idx
  · exact peakAt_of_threshold_eq xs ts ts' idx (hdiff (idx - 5) (by omega))
  · exact ⟨fun h => absurd h.1 h10, fun h => absurd h.1 h10⟩

/-! ## The claims -/

/-- C1: for sample and threshold sequences `x`, `t` of one length `N ≤ 65540`,
the run of `peakPicker` completes and the locations it writes form the
ascending list of all `L` with `6 ≤ L ≤ N - 5`, `x[L-1] ≥ t[L-1]` and
`x[j] ≤ x[L-1]` for every 0-based `j` with `L-6 ≤ j ≤ L+4`: the list is
strictly increasing and its members are exactly those `L`.  (All indices
used are below `N`, so the default of `getD` is never taken.) -/
theorem C1_locations_characterised (x t : List Int)
    (hlen : x.length = t.length) (hN : x.length ≤ 65540) :
    ∃ s, peakPicker x t (x.length : Int) = some s ∧
      s.locations_stream.Pairwise (· < ·) ∧
      ∀ L : Nat, L ∈ s.locations_stream ↔
        (6 ≤ L ∧ L + 5 ≤ x.length ∧ t.getD (L - 1) 0 ≤ x.getD (L - 1) 0 ∧
          ∀ j : Nat, L - 6 ≤ j → j ≤ L + 4 → x.getD j 0 ≤ x.getD (L - 1) 0) := by
  refine ⟨_, peakPicker_nat x t x.length (le_refl _) (by omega), ?_, ?_⟩
  · show (locationsOf _).Pairwise _
    rw [locationsOf_run]
    exact emitted_pairwise x t _ hN
  · intro L
    show L ∈ locationsOf _ ↔ _
    rw [locationsOf_run, mem_emitted_of_le x t _ L hN]
    constructor
    · rintro ⟨h1, h2, h3⟩
      exact ⟨h1, h2, (peakAt_window x t L h1).mp h3⟩
    · rintro ⟨h1, h2, h3⟩
      exact ⟨h1, h2, (peakAt_window x t L h1).mpr h3⟩

/-- Witness of C1 on the 11-sample input with one spike. -/
theorem C1_locations_characterised_witness :
    ([0, 0, 0, 0, 0, 9, 0, 0, 0, 0, 0] : List Int).length =
        ([0, 0, 0, 0, 0, 0, 0, 0, 0, 0, 0] : List Int).length ∧
      ([0, 0, 0, 0, 0, 9, 0, 0, 0, 0, 0] : List Int).length ≤ 65540 ∧
      ∃ s, peakPicker [0, 0, 0, 0, 0, 9, 0, 0, 0, 0, 0] [0, 0, 0, 0, 0, 0, 0, 0, 0, 0, 0]
          (([0, 0, 0, 0, 0, 9, 0, 0, 0, 0, 0] : List Int).length : Int) = some s ∧
        s.locations_stream.Pairwise (· < ·) ∧
        ∀ L : Nat, L ∈ s.locations_stream ↔
          (6 ≤ L ∧ L + 5 ≤ ([0, 0, 0, 0, 0, 9, 0, 0, 0, 0, 0] : List Int).length ∧
            ([0, 0, 0, 0, 0, 0, 0, 0, 0, 0, 0] : List Int).getD (L - 1) 0 ≤
              ([0, 0, 0, 0, 0, 9, 0, 0, 0, 0, 0] : List Int).getD (L - 1) 0 ∧
            ∀ j : Nat, L - 6 ≤ j → j ≤ L + 4 →
              ([0, 0, 0, 0, 0, 9, 0, 0, 0, 0, 0] : List Int).getD j 0 ≤
                ([0, 0, 0, 0, 0, 9, 0, 0, 0, 0, 0] : List Int).getD (L - 1) 0) :=
  ⟨by decide, by decide,
    C1_locations_characterised [0, 0, 0, 0, 0, 9, 0, 0, 0, 0, 0]
      [0, 0, 0, 0, 0, 0, 0, 0, 0, 0, 0] (by decide) (by decide)⟩

/-- C2: in every run whose streams hold at least `N` elements, `peakPicker`
completes, and its writes are the locations followed by exactly one count,
which is the number of written locations modulo 256.  On 266 zero samples
with zero thresholds it writes 256 locations and the count 0. -/
theorem C2_count_is_length_mod_256 (x t : List Int) (N : Nat)
    (hx : N ≤ x.length) (ht : N ≤ t.length) :
    (∃ s, peakPicker x t (N : Int) = some s ∧
      s.writes = s.locations_stream.map Write.location ++
        [Write.count (s.locations_stream.length % 256)] ∧
      s.count_stream = [s.locations_stream.length % 256]) ∧
    (∃ s, peakPicker (List.replicate 266 0) (List.replicate 266 0) 266 = some s ∧
      s.locations_stream.length = 256 ∧ s.count_stream = [0]) := by
  constructor
  · refine ⟨_, peakPicker_nat x t N hx ht, ?_, ?_⟩
    · show _ = (locationsOf _).map Write.location ++ [Write.count ((locationsOf _).length % 256)]
      rw [locationsOf_run]
    · show countsOf _ = [(locationsOf _).length % 256]
      rw [locationsOf_run, countsOf_run]
  · refine ⟨_, peakPicker_nat (List.replicate 266 0) (List.replicate 266 0) 266
      (by rw [List.length_replicate]) (by rw [List.length_replicate]), ?_, ?_⟩
    · show (locationsOf _).length = 256
      rw [locationsOf_run, emitted_zeros_length]
    · show countsOf _ = [0]
      rw [countsOf_run, emitted_zeros_length]

/-- Witness of C2 on a three-sample input. -/
theorem C2_count_is_length_mod_256_witness :
    3 ≤ ([1, 2, 3] : List Int).length ∧ 3 ≤ ([0, 0, 0] : List Int).length ∧
    ((∃ s, peakPicker [1, 2, 3] [0, 0, 0] ((3 : Nat) : Int) = some s ∧
      s.writes = s.locations_stream.map Write.location ++
        [Write.count (s.locations_stream.length % 256)] ∧
      s.count_stream = [s.locations_stream.length % 256]) ∧
    (∃ s, peakPicker (List.replicate 266 0) (List.replicate 266 0) 266 = some s ∧
      s.locations_stream.length = 256 ∧ s.count_stream = [0])) :=
  ⟨by decide, by decide,
    C2_count_is_length_mod_256 [1, 2, 3] [0, 0, 0] 3 (by decide) (by decide)⟩

/-- C3, as stated, fails: on 65541 zero samples with zero thresholds the
16-bit locations written are `6, 7, …, 65535, 0`, which is not strictly
increasing. -/
theorem C3_counterexample :
    ∃ s, peakPicker (List.replicate 65541 0) (List.replicate 65541 0) 65541 = some s ∧
      ¬ s.locations_stream.Pairwise (· < ·) := by
  refine ⟨_, peakPicker_zeros_65541, ?_⟩
  show ¬ (locationsOf _).Pairwise _
  rw [locationsOf_run]
  obtain ⟨h1, h2⟩ := emitted_zeros_wrap 65540 (by decide) (by decide)
  intro hp
  rw [h1, List.pairwise_append] at hp
  exact absurd (hp.2.2 6 h2 0 (List.mem_singleton.mpr rfl)) (by decide)

/-- C3, amended: for sample and threshold sequences of one length `N ≤ 65540`
the run completes and the written locations are strictly increasing. -/
theorem C3_locations_strictly_increasing (x t : List Int)
    (hlen : x.length = t.length) (hN : x.length ≤ 65540) :
    ∃ s, peakPicker x t (x.length : Int) = some s ∧
      s.locations_stream.Pairwise (· < ·) := by
  refine ⟨_, peakPicker_nat x t x.length (le_refl _) (by omega), ?_⟩
  show (locationsOf _).Pairwise _
  rw [locationsOf_run]
  exact emitted_pairwise x t _ hN

/-- Witness of the amended C3 on a 13-sample input with two peaks. -/
theorem C3_locations_strictly_increasing_witness :
    ([0, 0, 0, 0, 0, 7, 7, 0, 0, 0, 0, 0, 0] : List Int).length =
        ([0, 0, 0, 0, 0, 0, 0, 0, 0, 0, 0, 0, 0] : List Int).length ∧
      ([0, 0, 0, 0, 0, 7, 7, 0, 0, 0, 0, 0, 0] : List Int).length ≤ 65540 ∧
      ∃ s, peakPicker [0, 0, 0, 0, 0, 7, 7, 0, 0, 0, 0, 0, 0]
          [0, 0, 0, 0, 0, 0, 0, 0, 0, 0, 0, 0, 0]
          (([0, 0, 0, 0, 0, 7, 7, 0, 0, 0, 0, 0, 0] : List Int).length : Int) = some s ∧
        s.locations_stream.Pairwise (· < ·) :=
  ⟨by decide, by decide,
    C3_locations_strictly_increasing [0, 0, 0, 0, 0, 7, 7, 0, 0, 0, 0, 0, 0]
      [0, 0, 0, 0, 0, 0, 0, 0, 0, 0, 0, 0, 0] (by decide) (by decide)⟩

/-- C4, as stated, fails: on 65541 zero samples with zero thresholds the
16-bit location `0` is written, and `1 ≤ 0` is false. -/
theorem C4_counterexample :
    ∃ s, peakPicker (List.replicate 65541 0) (List.replicate 65541 0) 65541 = some s ∧
      ∃ L : Nat, L ∈ s.locations_stream ∧ ¬ (1 ≤ L ∧ L ≤ 65541 - 5) := by
  refine ⟨_, peakPicker_zeros_65541, 0, ?_, by decide⟩
  show 0 ∈ locationsOf _
  rw [locationsOf_run, (emitted_zeros_wrap 65540 (by decide) (by decide)).1]
  exact List.mem_append_right _ (List.mem_singleton.mpr rfl)

/-- C4, amended: for sample and threshold sequences of one length `N` the run
completes and every written location `L` satisfies `L ≤ N - 5`; when
`N ≤ 65540` it also satisfies `6 ≤ L`, so that `1 ≤ L` and no location among
the first 5 or the last 5 sample positions is written. -/
theorem C4_location_bounds (x t : List Int) (hlen : x.length = t.length) :
    ∃ s, peakPicker x t (x.length : Int) = some s ∧
      ∀ L : Nat, L ∈ s.locations_stream →
        L + 5 ≤ x.length ∧ (x.length ≤ 65540 → 6 ≤ L) := by
  refine ⟨_, peakPicker_nat x t x.length (le_refl _) (by omega), ?_⟩
  intro L hL
  have hL' : L ∈ locationsOf _ := hL
  rw [locationsOf_run] at hL'
  exact ⟨emitted_le x t _ L hL', fun hN => ((mem_emitted_of_le x t _ L hN).mp hL').1⟩

/-- Witness of the amended C4 on a 13-sample input with two peaks. -/
theorem C4_location_bounds_witness :
    ([0, 0, 0, 0, 0, 7, 7, 0, 0, 0, 0, 0, 0] : List Int).length =
        ([0, 0, 0, 0, 0, 0, 0, 0, 0, 0, 0, 0, 0] : List Int).length ∧
      ∃ s, peakPicker [0, 0, 0, 0, 0, 7, 7, 0, 0, 0, 0, 0, 0]
          [0, 0, 0, 0, 0, 0, 0, 0, 0, 0, 0, 0, 0]
          (([0, 0, 0, 0, 0, 7, 7, 0, 0, 0, 0, 0, 0] : List Int).length : Int) = some s ∧
        ∀ L : Nat, L ∈ s.locations_stream →
          L + 5 ≤ ([0, 0, 0, 0, 0, 7, 7, 0, 0, 0, 0, 0, 0] : List Int).length ∧
            (([0, 0, 0, 0, 0, 7, 7, 0, 0, 0, 0, 0, 0] : List Int).length ≤ 65540 → 6 ≤ L) :=
  ⟨by decide,
    C4_location_bounds [0, 0, 0, 0, 0, 7, 7, 0, 0, 0, 0, 0, 0]
      [0, 0, 0, 0, 0, 0, 0, 0, 0, 0, 0, 0, 0] (by decide)⟩

/-- C5 (plateau): for an input of length `N`, `15 ≤ N ≤ 65540`, whose samples
at the 0-based positions 5..9 all equal `v`, whose other samples are below
`v`, and whose thresholds at 5..9 are at most `v`, the run completes, its
first five written locations are 6, 7, 8, 9, 10, and no written location
lies in 1..5 or in 11..15. -/
theorem C5_plateau (x t : List Int) (v : Int)
    (hlen : x.length = t.length) (h15 : 15 ≤ x.length) (hN : x.length ≤ 65540)
    (hplat : ∀ j : Nat, 5 ≤ j → j ≤ 9 → x.getD j 0 = v)
    (hlow : ∀ j : Nat, j < x.length → ¬ (5 ≤ j ∧ j ≤ 9) → x.getD j 0 < v)
    (hthr : ∀ j : Nat, 5 ≤ j → j ≤ 9 → t.getD j 0 ≤ v) :
    ∃ s, peakPicker x t (x.length : Int) = some s ∧
      s.locations_stream.take 5 = [6, 7, 8, 9, 10] ∧
      ∀ L : Nat, L ∈ s.locations_stream → ¬ (1 ≤ L ∧ L ≤ 5) ∧ ¬ (11 ≤ L ∧ L ≤ 15) := by
  have hle : ∀ j : Nat, j < x.length → x.getD j 0 ≤ v := by
    intro j hj
    by_cases hc : 5 ≤ j ∧ j ≤ 9
    · exact le_of_eq (hplat j hc.1 hc.2)
    · exact le_of_lt (hlow j hj hc)
  have hpk : ∀ idx : Nat, 10 ≤ idx → idx ≤ 14 → peakAt x t idx := by
    intro idx h1 h2
    refine ⟨h1, ?_, fun i _ => ?_⟩
    · rw [hplat (idx - 5) (by omega) (by omega)]
      exact hthr (idx - 5) (by omega) (by omega)
    · rw [hplat (idx - 5) (by omega) (by omega)]
      exact hle (idx - i) (by omega)
  refine ⟨_, peakPicker_nat x t x.length (le_refl _) (by omega), ?_, ?_⟩
  · show (locationsOf _).take 5 = _
    rw [locationsOf_run]
    obtain ⟨rest, hrest⟩ := emitted_prefix x t 15 (x.length - 15)
    have e : 15 + (x.length - 15) = x.length := by omega
    rw [e, emitted_fifteen x t (hpk 10 (by omega) (by omega)) (hpk 11 (by omega) (by omega))
      (hpk 12 (by omega) (by omega)) (hpk 13 (by omega) (by omega))
      (hpk 14 (by omega) (by omega))] at hrest
    rw [hrest]
    rfl
  · intro L hL
    have hL' : L ∈ locationsOf _ := hL
    rw [locationsOf_run] at hL'
    obtain ⟨h6, hb, hp⟩ := (mem_emitted_of_le x t _ L hN).mp hL'
    refine ⟨by omega, fun hc => ?_⟩
    have hw := ((peakAt_window x t L h6).mp hp).2 9 (by omega) (by omega)
    rw [hplat 9 (by omega) (by omega)] at hw
    have := hlow (L - 1) (by omega) (by omega)
    exact absurd hw (not_le.mpr this)

/-- Witness of C5 on a 16-sample input with the plateau value 10 at the
positions 5..9. -/
theorem C5_plateau_witness :
    ∃ s, peakPicker [0, 1, 2, 3, 4, 10, 10, 10, 10, 10, 4, 3, 2, 1, 0, 9]
        [5, 5, 5, 5, 5, 5, 5, 5, 5, 5, 5, 5, 5, 5, 5, 5]
        (([0, 1, 2, 3, 4, 10, 10, 10, 10, 10, 4, 3, 2, 1, 0, 9] : List Int).length : Int)
          = some s ∧
      s.locations_stream.take 5 = [6, 7, 8, 9, 10] ∧
      ∀ L : Nat, L ∈ s.locations_stream → ¬ (1 ≤ L ∧ L ≤ 5) ∧ ¬ (11 ≤ L ∧ L ≤ 15) :=
  C5_plateau [0, 1, 2, 3, 4, 10, 10, 10, 10, 10, 4, 3, 2, 1, 0, 9]
    [5, 5, 5, 5, 5, 5, 5, 5, 5, 5, 5, 5, 5, 5, 5, 5] 10 (by decide) (by decide) (by decide)
    (by intro j h1 h2; interval_cases j <;> rfl)
    (by
      intro j h1 h2
      have h16 : j < 16 := h1
      interval_cases j <;> first | decide | exact absurd ⟨by decide, by decide⟩ h2)
    (by intro j h1 h2; interval_cases j <;> decide)

/-- C6 (threshold gate): for an input of length `N ≤ 65540` and a 0-based
position `p` whose sample is strictly below its aligned threshold, the run
completes and the location `p + 1` is not written, whatever the window
around `p` contains. -/
theorem C6_threshold_gate (x t : List Int) (p : Nat)
    (hlen : x.length = t.length) (hN : x.length ≤ 65540) (_hp : p < x.length)
    (hlt : x.getD p 0 < t.getD p 0) :
    ∃ s, peakPicker x t (x.length : Int) = some s ∧ p + 1 ∉ s.locations_stream := by
  refine ⟨_, peakPicker_nat x t x.length (le_refl _) (by omega), ?_⟩
  intro hL
  have hL' : p + 1 ∈ locationsOf _ := hL
  rw [locationsOf_run] at hL'
  obtain ⟨h6, -, hpk⟩ := (mem_emitted_of_le x t _ (p + 1) hN).mp hL'
  have hge := ((peakAt_window x t (p + 1) h6).mp hpk).1
  rw [Nat.add_sub_cancel] at hge
  exact absurd hge (not_le.mpr hlt)

/-- Witness of C6: the sample at position 5 is the maximum of its window and is
below its threshold. -/
theorem C6_threshold_gate_witness :
    ∃ s, peakPicker [0, 0, 0, 0, 0, 49, 0, 0, 0, 0, 0] [0, 0, 0, 0, 0, 50, 0, 0, 0, 0, 0]
        (([0, 0, 0, 0, 0, 49, 0, 0, 0, 0, 0] : List Int).length : Int) = some s ∧
      5 + 1 ∉ s.locations_stream :=
  C6_threshold_gate [0, 0, 0, 0, 0, 49, 0, 0, 0, 0, 0] [0, 0, 0, 0, 0, 50, 0, 0, 0, 0, 0] 5
    (by decide) (by decide) (by decide) (by decide)

/-- C7: on the samples `[0,0,0,0,0,9,0,0,0,0,0]` with all-zero thresholds and
length 11, `peakPicker` completes having written exactly the location 6 and
then the count 1. -/
theorem C7_single_spike :
    (peakPicker [0, 0, 0, 0, 0, fixed 9, 0, 0, 0, 0, 0] [0, 0, 0, 0, 0, 0, 0, 0, 0, 0, 0]
        11).map State.writes = some [Write.location 6, Write.count 1] ∧
      (peakPicker [0, 0, 0, 0, 0, fixed 9, 0, 0, 0, 0, 0] [0, 0, 0, 0, 0, 0, 0, 0, 0, 0, 0]
        11).map State.locations_stream = some [6] ∧
      (peakPicker [0, 0, 0, 0, 0, fixed 9, 0, 0, 0, 0, 0] [0, 0, 0, 0, 0, 0, 0, 0, 0, 0, 0]
        11).map State.count_stream = some [1] := by
  decide

/-- C8: for an input of length `N < 11`, whatever its values, `peakPicker`
completes having written no location and the count 0. -/
theorem C8_short_input (x t : List Int) (hlen : x.length = t.length) (h11 : x.length < 11) :
    ∃ s, peakPicker x t (x.length : Int) = some s ∧
      s.writes = [Write.count 0] ∧ s.locations_stream = [] ∧ s.count_stream = [0] := by
  refine ⟨_, peakPicker_nat x t x.length (le_refl _) (by omega), ?_⟩
  have h : emitted x t x.length = [] := emitted_short x t _ (by omega)
  refine ⟨?_, ?_, ?_⟩
  · show _ ++ _ = _
    rw [h]; rfl
  · show locationsOf _ = _
    rw [locationsOf_run, h]
  · show countsOf _ = _
    rw [countsOf_run, h]; rfl

/-- Witness of C8 on an input of length 5. -/
theorem C8_short_input_witness :
    ∃ s, peakPicker [3, 1, 4, 1, 5] [0, 0, 0, 0, 0]
        (([3, 1, 4, 1, 5] : List Int).length : Int) = some s ∧
      s.writes = [Write.count 0] ∧ s.locations_stream = [] ∧ s.count_stream = [0] :=
  C8_short_input [3, 1, 4, 1, 5] [0, 0, 0, 0, 0] (by decide) (by decide)

/-- C9: when both streams hold at least `N` elements, the run with length `N`
completes; it leaves on the sample stream and on the threshold stream exactly
what follows the first `N` elements, in order; and its writes are those
obtained by processing, for `i = 0, …, N-1` in turn and with loop counter `i`,
the pair made of the `i`-th sample and the `i`-th threshold, followed by the
count. -/
theorem C9_streams_consumed (x t : List Int) (N : Nat)
    (hx : N ≤ x.length) (ht : N ≤ t.length) :
    ∃ s, peakPicker x t (N : Int) = some s ∧
      s.xcorr_stream = x.drop N ∧ s.threshold_stream = t.drop N ∧
      ∃ s', s' = List.foldl (fun st p => process p.1 p.2.1 p.2.2 st)
            (INIT_LOOP WINDOW_LENGTH (entry [] []))
            (List.enum (List.zip (x.take N) (t.take N))) ∧
        s.window_buffer = s'.window_buffer ∧ s.threshold_buffer = s'.threshold_buffer ∧
        s.writes = s'.writes ++ [Write.count s'.peak_count] := by
  have hlen : (List.zip (x.take N) (t.take N)).length = N := by
    rw [List.length_zip, List.length_take, List.length_take]; omega
  have hfst : (List.zip (x.take N) (t.take N)).map Prod.fst = x.take N :=
    List.map_fst_zip _ _ (by rw [List.length_take, List.length_take]; omega)
  have hsnd : (List.zip (x.take N) (t.take N)).map Prod.snd = t.take N :=
    List.map_snd_zip _ _ (by rw [List.length_take, List.length_take]; omega)
  have hrun := MAIN_LOOP_from_pairs (List.zip (x.take N) (t.take N)) 0
    (INIT_LOOP WINDOW_LENGTH (entry x t)) (x.drop N) (t.drop N)
    (by rw [hfst, List.take_append_drop]; rfl) (by rw [hsnd, List.take_append_drop]; rfl)
  rw [hlen, INIT_LOOP_setStreams, setStreams_setStreams] at hrun
  have hpp : peakPicker x t (N : Int) = some
      { setStreams (List.foldl (fun st p => process p.1 p.2.1 p.2.2 st)
            (setStreams (INIT_LOOP WINDOW_LENGTH (entry [] [])) [] [])
            (List.enumFrom 0 (List.zip (x.take N) (t.take N)))) (x.drop N) (t.drop N) with
        writes := (List.foldl (fun st p => process p.1 p.2.1 p.2.2 st)
            (setStreams (INIT_LOOP WINDOW_LENGTH (entry [] [])) [] [])
            (List.enumFrom 0 (List.zip (x.take N) (t.take N)))).writes ++
          [Write.count (List.foldl (fun st p => process p.1 p.2.1 p.2.2 st)
            (setStreams (INIT_LOOP WINDOW_LENGTH (entry [] [])) [] [])
            (List.enumFrom 0 (List.zip (x.take N) (t.take N)))).peak_count] } := by
    unfold peakPicker MAIN_LOOP
    rw [Int.toNat_ofNat, INIT_LOOP_setStreams, hrun]
    rfl
  exact ⟨_, hpp, rfl, rfl, _, rfl, rfl, rfl, rfl⟩

/-- Witness of C9: a run of length 2 on streams of 3 and 4 elements. -/
theorem C9_streams_consumed_witness :
    2 ≤ ([1, 2, 3] : List Int).length ∧ 2 ≤ ([0, 0, 0, 0] : List Int).length ∧
    ∃ s, peakPicker [1, 2, 3] [0, 0, 0, 0] ((2 : Nat) : Int) = some s ∧
      s.xcorr_stream = ([1, 2, 3] : List Int).drop 2 ∧
      s.threshold_stream = ([0, 0, 0, 0] : List Int).drop 2 ∧
      ∃ s', s' = List.foldl (fun st p => process p.1 p.2.1 p.2.2 st)
            (INIT_LOOP WINDOW_LENGTH (entry [] []))
            (List.enum (List.zip (([1, 2, 3] : List Int).take 2)
              (([0, 0, 0, 0] : List Int).take 2))) ∧
        s.window_buffer = s'.window_buffer ∧ s.threshold_buffer = s'.threshold_buffer ∧
        s.writes = s'.writes ++ [Write.count s'.peak_count] :=
  ⟨by decide, by decide, C9_streams_consumed [1, 2, 3] [0, 0, 0, 0] 2 (by decide) (by decide)⟩

/-- C10, as stated, fails: with the length `-1` the run completes normally, and
its result is the result of the run with length `0` on empty streams, which
writes no location and the count 0. -/
theorem C10_counterexample :
    peakPicker [] [] (-1) = peakPicker [] [] 0 ∧
      (peakPicker [] [] (-1)).map State.writes = some [Write.count 0] := by
  decide

/-- C10, amended: for every negative length and all stream contents the run
completes normally; it reads nothing from either stream, writes no location
and writes the count 0, and its result is that of the run with length 0 on
the same streams. -/
theorem C10_negative_length_runs (x t : List Int) (length : Int) (hneg : length < 0) :
    peakPicker x t length = peakPicker x t 0 ∧
      ∃ s, peakPicker x t length = some s ∧
        s.xcorr_stream = x ∧ s.threshold_stream = t ∧ s.writes = [Write.count 0] := by
  have h0 : length.toNat = 0 := Int.toNat_eq_zero.mpr (le_of_lt hneg)
  have e : peakPicker x t length = peakPicker x t 0 := by
    unfold peakPicker MAIN_LOOP
    rw [h0]; rfl
  exact ⟨e, _, e, rfl, rfl, rfl⟩

/-- Witness of the amended C10 at the length `-3` on non-empty streams. -/
theorem C10_negative_length_runs_witness :
    (-3 : Int) < 0 ∧
    (peakPicker [1, 2] [0, 0] (-3) = peakPicker [1, 2] [0, 0] 0 ∧
      ∃ s, peakPicker [1, 2] [0, 0] (-3) = some s ∧
        s.xcorr_stream = [1, 2] ∧ s.threshold_stream = [0, 0] ∧
        s.writes = [Write.count 0]) :=
  ⟨by decide, C10_negative_length_runs [1, 2] [0, 0] (-3) (by decide)⟩

/-- C11, as stated, fails: on 266 zero samples with zero thresholds the core
writes 256 locations and the count 0, and the test bench, which reads as many
locations as the count says, collects none of them. -/
theorem C11_counterexample :
    ∃ s, peakPicker (List.replicate 266 0) (List.replicate 266 0) 266 = some s ∧
      s.locations_stream.length = 256 ∧
      main (List.replicate 266 0) (List.replicate 266 0) = some [] := by
  refine ⟨_, peakPicker_nat (List.replicate 266 0) (List.replicate 266 0) 266
    (by rw [List.length_replicate]) (by rw [List.length_replicate]), ?_, ?_⟩
  · show (locationsOf _).length = 256
    rw [locationsOf_run, emitted_zeros_length]
  · rw [main_eq _ _ (by rw [List.length_replicate]),
      List.length_replicate, emitted_zeros_length]
    rfl

/-- C11, amended: for sample and threshold vectors of one length, with `K` the
number of locations the core writes, the list the test bench collects is the
first `K mod 256` of these locations, in the order written; when `K ≤ 255` it
is the complete list, one entry per written location. -/
theorem C11_harness_collects (x t : List Int) (hlen : x.length = t.length) :
    ∃ s, peakPicker x t (x.length : Int) = some s ∧
      main x t = some ((s.locations_stream.take (s.locations_stream.length % 256)).map
        (fun l : Nat => (l : Int))) ∧
      (s.locations_stream.length ≤ 255 →
        main x t = some (s.locations_stream.map (fun l : Nat => (l : Int)))) := by
  refine ⟨_, peakPicker_nat x t x.length (le_refl _) (by omega), ?_, ?_⟩
  · show _ = some (((locationsOf _).take ((locationsOf _).length % 256)).map _)
    rw [locationsOf_run]
    exact main_eq x t hlen
  · intro hK
    have hK' : (locationsOf _).length ≤ 255 := hK
    show _ = some ((locationsOf _).map _)
    rw [locationsOf_run] at hK' ⊢
    rw [main_eq x t hlen, Nat.mod_eq_of_lt (by omega), List.take_length]

/-- Witness of the amended C11 on a 13-sample input with two peaks. -/
theorem C11_harness_collects_witness :
    ([0, 0, 0, 0, 0, 7, 7, 0, 0, 0, 0, 0, 0] : List Int).length =
        ([0, 0, 0, 0, 0, 0, 0, 0, 0, 0, 0, 0, 0] : List Int).length ∧
      ∃ s, peakPicker [0, 0, 0, 0, 0, 7, 7, 0, 0, 0, 0, 0, 0]
          [0, 0, 0, 0, 0, 0, 0, 0, 0, 0, 0, 0, 0]
          (([0, 0, 0, 0, 0, 7, 7, 0, 0, 0, 0, 0, 0] : List Int).length : Int) = some s ∧
        main [0, 0, 0, 0, 0, 7, 7, 0, 0, 0, 0, 0, 0] [0, 0, 0, 0, 0, 0, 0, 0, 0, 0, 0, 0, 0] =
          some ((s.locations_stream.take (s.locations_stream.length % 256)).map
            (fun l : Nat => (l : Int))) ∧
        (s.locations_stream.length ≤ 255 →
          main [0, 0, 0, 0, 0, 7, 7, 0, 0, 0, 0, 0, 0] [0, 0, 0, 0, 0, 0, 0, 0, 0, 0, 0, 0, 0] =
            some (s.locations_stream.map (fun l : Nat => (l : Int)))) :=
  ⟨by decide,
    C11_harness_collects [0, 0, 0, 0, 0, 7, 7, 0, 0, 0, 0, 0, 0]
      [0, 0, 0, 0, 0, 0, 0, 0, 0, 0, 0, 0, 0] (by decide)⟩

/-- C12 (window invariant): whatever the two arrays hold when they are
declared, when the streams hold at least `k` pairs, `INIT_LOOP` followed by
the first `k` iterations of `MAIN_LOOP` completes, and in the state reached
both buffers have exactly 11 entries, entry `i` of `window_buffer` being
`x[k-1-i]` when `i < k` and the pre-fill `0` stored by `INIT_LOOP` otherwise,
and likewise for `threshold_buffer` and `t`.  Hence for `k ≥ 11`, that is
after every iteration with `index ≥ 10` (the peak test reads the buffers the
iteration leaves), all 11 entries are input values. -/
theorem C12_window_invariant (window_init threshold_init x t : List Int) (k : Nat)
    (hw : window_init.length = WINDOW_LENGTH) (hth : threshold_init.length = WINDOW_LENGTH)
    (hx : k ≤ x.length) (ht : k ≤ t.length) :
    ∃ s, MAIN_LOOP (k : Int)
        (INIT_LOOP WINDOW_LENGTH (uninitialised window_init threshold_init x t)) = some s ∧
      s.window_buffer.length = 11 ∧ s.threshold_buffer.length = 11 ∧
      (∀ i : Nat, i < 11 →
        s.window_buffer[i]? = (if i < k then x[k - 1 - i]? else some 0) ∧
        s.threshold_buffer[i]? = (if i < k then t[k - 1 - i]? else some 0)) ∧
      (11 ≤ k → ∀ i : Nat, i < 11 →
        (∃ a, x[k - 1 - i]? = some a ∧ s.window_buffer[i]? = some a) ∧
        (∃ b, t[k - 1 - i]? = some b ∧ s.threshold_buffer[i]? = some b)) := by
  have hrun : MAIN_LOOP (k : Int)
      (INIT_LOOP WINDOW_LENGTH (uninitialised window_init threshold_init x t)) =
        some (stateAt x t k) := by
    rw [INIT_LOOP_uninitialised window_init threshold_init x t hw hth, ← INIT_LOOP_entry]
    exact MAIN_LOOP_stateAt x t k hx ht
  refine ⟨_, hrun, winAt_length x k, winAt_length t k, ?_, ?_⟩
  · intro i hi
    exact ⟨winAt_get x k i hi hx, winAt_get t k i hi ht⟩
  · intro hk i hi
    have hik : i < k := by omega
    have hbx : k - 1 - i < x.length := by omega
    have hbt : k - 1 - i < t.length := by omega
    refine ⟨⟨x[k - 1 - i], List.getElem?_eq_getElem hbx, ?_⟩,
      ⟨t[k - 1 - i], List.getElem?_eq_getElem hbt, ?_⟩⟩
    · have h := winAt_get x k i hi hx
      rw [if_pos hik, List.getElem?_eq_getElem hbx] at h
      exact h
    · have h := winAt_get t k i hi ht
      rw [if_pos hik, List.getElem?_eq_getElem hbt] at h
      exact h

/-- Witness of C12: arrays declared with non-zero content; three pairs
absorbed out of streams of four, where eight cells keep the pre-fill, and
twelve pairs absorbed out of streams of thirteen, where none does. -/
theorem C12_window_invariant_witness :
    (([91, 92, 93, 94, 95, 96, 97, 98, 99, 90, 89] : List Int).length = WINDOW_LENGTH ∧
    ([-1, -2, -3, -4, -5, -6, -7, -8, -9, -10, -11] : List Int).length = WINDOW_LENGTH ∧
    3 ≤ ([1, 2, 3, 4] : List Int).length ∧
    3 ≤ ([5, 6, 7, 8] : List Int).length ∧
    ∃ s, MAIN_LOOP ((3 : Nat) : Int) (INIT_LOOP WINDOW_LENGTH
          (uninitialised [91, 92, 93, 94, 95, 96, 97, 98, 99, 90, 89]
            [-1, -2, -3, -4, -5, -6, -7, -8, -9, -10, -11]
            [1, 2, 3, 4]
            [5, 6, 7, 8])) = some s ∧
      s.window_buffer.length = 11 ∧ s.threshold_buffer.length = 11 ∧
      (∀ i : Nat, i < 11 →
        s.window_buffer[i]? =
          (if i < 3 then ([1, 2, 3, 4] : List Int)[3 - 1 - i]?
            else some 0) ∧
        s.threshold_buffer[i]? =
          (if i < 3 then
            ([5, 6, 7, 8] : List Int)[3 - 1 - i]?
            else some 0)) ∧
      (11 ≤ 3 → ∀ i : Nat, i < 11 →
        (∃ a, ([1, 2, 3, 4] : List Int)[3 - 1 - i]? = some a ∧
          s.window_buffer[i]? = some a) ∧
        (∃ b, ([5, 6, 7, 8] : List Int)[3 - 1 - i]?
            = some b ∧ s.threshold_buffer[i]? = some b))) ∧
    (([91, 92, 93, 94, 95, 96, 97, 98, 99, 90, 89] : List Int).length = WINDOW_LENGTH ∧
    ([-1, -2, -3, -4, -5, -6, -7, -8, -9, -10, -11] : List Int).length = WINDOW_LENGTH ∧
    12 ≤ ([1, 2, 3, 4, 5, 6, 7, 8, 9, 10, 11, 12, 13] : List Int).length ∧
    12 ≤ ([21, 22, 23, 24, 25, 26, 27, 28, 29, 30, 31, 32, 33] : List Int).length ∧
    ∃ s, MAIN_LOOP ((12 : Nat) : Int) (INIT_LOOP WINDOW_LENGTH
          (uninitialised [91, 92, 93, 94, 95, 96, 97, 98, 99, 90, 89]
            [-1, -2, -3, -4, -5, -6, -7, -8, -9, -10, -11]
            [1, 2, 3, 4, 5, 6, 7, 8, 9, 10, 11, 12, 13]
            [21, 22, 23, 24, 25, 26, 27, 28, 29, 30, 31, 32, 33])) = some s ∧
      s.window_buffer.length = 11 ∧ s.threshold_buffer.length = 11 ∧
      (∀ i : Nat, i < 11 →
        s.window_buffer[i]? =
          (if i < 12 then ([1, 2, 3, 4, 5, 6, 7, 8, 9, 10, 11, 12, 13] : List Int)[12 - 1 - i]?
            else some 0) ∧
        s.threshold_buffer[i]? =
          (if i < 12 then
            ([21, 22, 23, 24, 25, 26, 27, 28, 29, 30, 31, 32, 33] : List Int)[12 - 1 - i]?
            else some 0)) ∧
      (11 ≤ 12 → ∀ i : Nat, i < 11 →
        (∃ a, ([1, 2, 3, 4, 5, 6, 7, 8, 9, 10, 11, 12, 13] : List Int)[12 - 1 - i]? = some a ∧
          s.window_buffer[i]? = some a) ∧
        (∃ b, ([21, 22, 23, 24, 25, 26, 27, 28, 29, 30, 31, 32, 33] : List Int)[12 - 1 - i]?
            = some b ∧ s.threshold_buffer[i]? = some b))) :=
  ⟨⟨by decide, by decide, by decide, by decide,
    C12_window_invariant [91, 92, 93, 94, 95, 96, 97, 98, 99, 90, 89]
      [-1, -2, -3, -4, -5, -6, -7, -8, -9, -10, -11]
      [1, 2, 3, 4]
      [5, 6, 7, 8] 3
      (by decide) (by decide) (by decide) (by decide)⟩,
    ⟨by decide, by decide, by decide, by decide,
    C12_window_invariant [91, 92, 93, 94, 95, 96, 97, 98, 99, 90, 89]
      [-1, -2, -3, -4, -5, -6, -7, -8, -9, -10, -11]
      [1, 2, 3, 4, 5, 6, 7, 8, 9, 10, 11, 12, 13]
      [21, 22, 23, 24, 25, 26, 27, 28, 29, 30, 31, 32, 33] 12
      (by decide) (by decide) (by decide) (by decide)⟩⟩

/-- C13 (non-causal delay): for an input of length `N ≤ 65540` and `k ≤ N`,
the run on only the first `k` pairs completes, as does the run with length
`k` on the whole streams, and both write exactly the locations `L` of the
full run with `L ≤ k - 5`, in the same order.  So a location `P` is written
by the iteration that absorbs sample `P + 5`, not earlier, and what has been
written is not changed by later samples. -/
theorem C13_noncausal_delay (x t : List Int) (k : Nat)
    (hlen : x.length = t.length) (hN : x.length ≤ 65540) (hk : k ≤ x.length) :
    ∃ s sk sk', peakPicker x t (x.length : Int) = some s ∧
      peakPicker (x.take k) (t.take k) (k : Int) = some sk ∧
      peakPicker x t (k : Int) = some sk' ∧
      sk.locations_stream = s.locations_stream.filter (fun L => decide (L + 5 ≤ k)) ∧
      sk'.locations_stream = s.locations_stream.filter (fun L => decide (L + 5 ≤ k)) := by
  have hfull := peakPicker_nat x t x.length (le_refl _) (by omega)
  have hpre := peakPicker_nat (x.take k) (t.take k) k
    (by rw [List.length_take]; omega) (by rw [List.length_take]; omega)
  have hcut := peakPicker_nat x t k hk (by omega)
  have hdelay : (emitted x t x.length).filter (fun L => decide (L + 5 ≤ k)) = emitted x t k := by
    have h := emitted_filter_delay x t k (x.length - k) (by omega)
    have e : k + (x.length - k) = x.length := by omega
    rwa [e] at h
  have htake : emitted (x.take k) (t.take k) k = emitted x t k :=
    emitted_congr _ _ _ _ k (fun idx hidx => peakAt_take x t k idx hidx)
  refine ⟨_, _, _, hfull, hpre, hcut, ?_, ?_⟩
  · show locationsOf _ = (locationsOf _).filter _
    rw [locationsOf_run, locationsOf_run, hdelay, htake]
  · show locationsOf _ = (locationsOf _).filter _
    rw [locationsOf_run, locationsOf_run, hdelay]

/-- Witness of C13: the 13-sample input with peaks at 6 and 7, cut after 11
pairs. -/
theorem C13_noncausal_delay_witness :
    ∃ s sk sk', peakPicker [0, 0, 0, 0, 0, 7, 7, 0, 0, 0, 0, 0, 0]
        [0, 0, 0, 0, 0, 0, 0, 0, 0, 0, 0, 0, 0]
        (([0, 0, 0, 0, 0, 7, 7, 0, 0, 0, 0, 0, 0] : List Int).length : Int) = some s ∧
      peakPicker (([0, 0, 0, 0, 0, 7, 7, 0, 0, 0, 0, 0, 0] : List Int).take 11)
        (([0, 0, 0, 0, 0, 0, 0, 0, 0, 0, 0, 0, 0] : List Int).take 11) ((11 : Nat) : Int)
          = some sk ∧
      peakPicker [0, 0, 0, 0, 0, 7, 7, 0, 0, 0, 0, 0, 0]
        [0, 0, 0, 0, 0, 0, 0, 0, 0, 0, 0, 0, 0] ((11 : Nat) : Int) = some sk' ∧
      sk.locations_stream = s.locations_stream.filter (fun L => decide (L + 5 ≤ 11)) ∧
      sk'.locations_stream = s.locations_stream.filter (fun L => decide (L + 5 ≤ 11)) :=
  C13_noncausal_delay [0, 0, 0, 0, 0, 7, 7, 0, 0, 0, 0, 0, 0]
    [0, 0, 0, 0, 0, 0, 0, 0, 0, 0, 0, 0, 0] 11 (by decide) (by decide) (by decide)

/-- C14: for a strictly increasing map `f` on sample values and sample and
threshold sequences of one length, the run on the sequences mapped by `f`
and the run on the original ones both complete and make the same writes:
the same locations and the same count.  The buffers are pre-filled with the
literal `0` in both runs, whatever `f 0` is. -/
theorem C14_monotone_invariance (f : Int → Int) (hf : StrictMono f) (x t : List Int)
    (hlen : x.length = t.length) :
    ∃ s s', peakPicker x t (x.length : Int) = some s ∧
      peakPicker (x.map f) (t.map f) (x.length : Int) = some s' ∧
      s'.writes = s.writes ∧ s'.locations_stream = s.locations_stream ∧
      s'.count_stream = s.count_stream := by
  have h1 := peakPicker_nat x t x.length (le_refl _) (by omega)
  have h2 := peakPicker_nat (x.map f) (t.map f) x.length
    (by rw [List.length_map]) (by rw [List.length_map]; omega)
  have he : emitted (x.map f) (t.map f) x.length = emitted x t x.length :=
    emitted_congr _ _ _ _ _ (fun idx hidx => peakAt_map f hf x t idx hidx (by omega))
  rw [he] at h2
  exact ⟨_, _, h1, h2, rfl, rfl, rfl⟩

/-- Witness of C14 with `f v = 2 v + 1`, for which `f 0 ≠ 0`. -/
theorem C14_monotone_invariance_witness :
    StrictMono (fun v : Int => 2 * v + 1) ∧
    ∃ s s', peakPicker [0, 0, 0, 0, 0, -7, -7, -9, -9, -9, -9, -9, -9]
        [-8, -8, -8, -8, -8, -8, -8, -8, -8, -8, -8, -8, -8]
        (([0, 0, 0, 0, 0, -7, -7, -9, -9, -9, -9, -9, -9] : List Int).length : Int) = some s ∧
      peakPicker (([0, 0, 0, 0, 0, -7, -7, -9, -9, -9, -9, -9, -9] : List Int).map
          (fun v : Int => 2 * v + 1))
        (([-8, -8, -8, -8, -8, -8, -8, -8, -8, -8, -8, -8, -8] : List Int).map
          (fun v : Int => 2 * v + 1))
        (([0, 0, 0, 0, 0, -7, -7, -9, -9, -9, -9, -9, -9] : List Int).length : Int) = some s' ∧
      s'.writes = s.writes ∧ s'.locations_stream = s.locations_stream ∧
      s'.count_stream = s.count_stream :=
  ⟨fun a b hab => by show 2 * a + 1 < 2 * b + 1; omega,
    C14_monotone_invariance (fun v : Int => 2 * v + 1)
      (fun a b hab => by show 2 * a + 1 < 2 * b + 1; omega)
      [0, 0, 0, 0, 0, -7, -7, -9, -9, -9, -9, -9, -9]
      [-8, -8, -8, -8, -8, -8, -8, -8, -8, -8, -8, -8, -8] (by decide)⟩

/-- C15: in a run on an input of length `N ≤ 65540`, two written locations
`L1 < L2` with `L2 - L1 ≤ 5` have equal samples, `x[L1-1] = x[L2-1]`; hence
two written locations with different samples are at least 6 positions apart.
(Both indices are below `N`, so the default of `getD` is never taken.) -/
theorem C15_close_peaks_equal (x t : List Int)
    (hlen : x.length = t.length) (hN : x.length ≤ 65540) :
    ∃ s, peakPicker x t (x.length : Int) = some s ∧
      (∀ L1 L2 : Nat, L1 ∈ s.locations_stream → L2 ∈ s.locations_stream →
        L1 < L2 → L2 - L1 ≤ 5 → x.getD (L1 - 1) 0 = x.getD (L2 - 1) 0) ∧
      (∀ L1 L2 : Nat, L1 ∈ s.locations_stream → L2 ∈ s.locations_stream →
        L1 < L2 → x.getD (L1 - 1) 0 ≠ x.getD (L2 - 1) 0 → L1 + 6 ≤ L2) := by
  have key : ∀ L1 L2 : Nat, L1 ∈ emitted x t x.length → L2 ∈ emitted x t x.length →
      L1 < L2 → L2 - L1 ≤ 5 → x.getD (L1 - 1) 0 = x.getD (L2 - 1) 0 := by
    intro L1 L2 h1 h2 hlt hd
    obtain ⟨a1, -, a3⟩ := (mem_emitted_of_le x t _ L1 hN).mp h1
    obtain ⟨b1, -, b3⟩ := (mem_emitted_of_le x t _ L2 hN).mp h2
    have w1 := ((peakAt_window x t L1 a1).mp a3).2 (L2 - 1) (by omega) (by omega)
    have w2 := ((peakAt_window x t L2 b1).mp b3).2 (L1 - 1) (by omega) (by omega)
    exact le_antisymm w2 w1
  refine ⟨_, peakPicker_nat x t x.length (le_refl _) (by omega), ?_, ?_⟩
  · intro L1 L2 h1 h2
    have h1' : L1 ∈ locationsOf _ := h1
    have h2' : L2 ∈ locationsOf _ := h2
    rw [locationsOf_run] at h1' h2'
    exact key L1 L2 h1' h2'
  · intro L1 L2 h1 h2 hlt hne
    have h1' : L1 ∈ locationsOf _ := h1
    have h2' : L2 ∈ locationsOf _ := h2
    rw [locationsOf_run] at h1' h2'
    by_contra hc
    exact hne (key L1 L2 h1' h2' hlt (by omega))

/-- Witness of C15 on the 13-sample input whose locations 6 and 7 are both
written. -/
theorem C15_close_peaks_equal_witness :
    ∃ s, peakPicker [0, 0, 0, 0, 0, 7, 7, 0, 0, 0, 0, 0, 0]
        [0, 0, 0, 0, 0, 0, 0, 0, 0, 0, 0, 0, 0]
        (([0, 0, 0, 0, 0, 7, 7, 0, 0, 0, 0, 0, 0] : List Int).length : Int) = some s ∧
      (∀ L1 L2 : Nat, L1 ∈ s.locations_stream → L2 ∈ s.locations_stream →
        L1 < L2 → L2 - L1 ≤ 5 →
        ([0, 0, 0, 0, 0, 7, 7, 0, 0, 0, 0, 0, 0] : List Int).getD (L1 - 1) 0 =
          ([0, 0, 0, 0, 0, 7, 7, 0, 0, 0, 0, 0, 0] : List Int).getD (L2 - 1) 0) ∧
      (∀ L1 L2 : Nat, L1 ∈ s.locations_stream → L2 ∈ s.locations_stream →
        L1 < L2 →
        ([0, 0, 0, 0, 0, 7, 7, 0, 0, 0, 0, 0, 0] : List Int).getD (L1 - 1) 0 ≠
          ([0, 0, 0, 0, 0, 7, 7, 0, 0, 0, 0, 0, 0] : List Int).getD (L2 - 1) 0 →
        L1 + 6 ≤ L2) :=
  C15_close_peaks_equal [0, 0, 0, 0, 0, 7, 7, 0, 0, 0, 0, 0, 0]
    [0, 0, 0, 0, 0, 0, 0, 0, 0, 0, 0, 0, 0] (by decide) (by decide)

/-- C16 (threshold monotonicity): for samples `x` and threshold sequences `t`,
`t'` of the length `N ≤ 65540` of `x`, with `t'[i] ≤ t[i]` at every position,
both runs complete, every location written for `(x, t)` is written for
`(x, t')`, and the locations written for `(x, t)` are a subsequence of those
written for `(x, t')`. -/
theorem C16_threshold_monotone (x t t' : List Int)
    (hlen : x.length = t.length) (hlen' : x.length = t'.length) (_hN : x.length ≤ 65540)
    (hle : ∀ i : Nat, i < x.length → t'.getD i 0 ≤ t.getD i 0) :
    ∃ s s', peakPicker x t (x.length : Int) = some s ∧
      peakPicker x t' (x.length : Int) = some s' ∧
      (∀ L : Nat, L ∈ s.locations_stream → L ∈ s'.locations_stream) ∧
      s.locations_stream.Sublist s'.locations_stream := by
  have hsub : (emitted x t x.length).Sublist (emitted x t' x.length) :=
    emitted_sublist_of_imp x t t' x.length (fun idx hidx hp =>
      peakAt_of_threshold_le x t t' idx (hle (idx - 5) (by omega)) hp)
  refine ⟨_, _, peakPicker_nat x t x.length (le_refl _) (by omega),
    peakPicker_nat x t' x.length (le_refl _) (by omega), ?_, ?_⟩
  · intro L hL
    have hL' : L ∈ locationsOf _ := hL
    show L ∈ locationsOf _
    rw [locationsOf_run] at hL' ⊢
    exact hsub.subset hL'
  · show (locationsOf _).Sublist (locationsOf _)
    rw [locationsOf_run, locationsOf_run]
    exact hsub

/-- Witness of C16: lowering the threshold at position 6 from 9 to 0 adds the
location 7 to the location 6. -/
theorem C16_threshold_monotone_witness :
    ∃ s s', peakPicker [0, 0, 0, 0, 0, 7, 7, 0, 0, 0, 0, 0, 0]
        [0, 0, 0, 0, 0, 0, 9, 0, 0, 0, 0, 0, 0]
        (([0, 0, 0, 0, 0, 7, 7, 0, 0, 0, 0, 0, 0] : List Int).length : Int) = some s ∧
      peakPicker [0, 0, 0, 0, 0, 7, 7, 0, 0, 0, 0, 0, 0]
        [0, 0, 0, 0, 0, 0, 0, 0, 0, 0, 0, 0, 0]
        (([0, 0, 0, 0, 0, 7, 7, 0, 0, 0, 0, 0, 0] : List Int).length : Int) = some s' ∧
      (∀ L : Nat, L ∈ s.locations_stream → L ∈ s'.locations_stream) ∧
      s.locations_stream.Sublist s'.locations_stream :=
  C16_threshold_monotone [0, 0, 0, 0, 0, 7, 7, 0, 0, 0, 0, 0, 0]
    [0, 0, 0, 0, 0, 0, 9, 0, 0, 0, 0, 0, 0] [0, 0, 0, 0, 0, 0, 0, 0, 0, 0, 0, 0, 0]
    (by decide) (by decide) (by decide)
    (by
      intro i hi
      have h13 : i < 13 := hi
      interval_cases i <;> decide)

/-- C17 (threshold locality): for samples `x` of length `N ≤ 65540` and two
threshold sequences of that length that agree at every 0-based position other
than `p`, both runs complete and their written locations agree once the
location `p + 1` is left out of both: every other location is written by one
run exactly when it is written by the other, in the same order.  When `p` is
one of the first 5 or of the last 5 positions, the two runs make the same
writes, locations and count. -/
theorem C17_threshold_locality (x t t' : List Int) (p : Nat)
    (hlen : x.length = t.length) (hlen' : x.length = t'.length) (hN : x.length ≤ 65540)
    (hdiff : ∀ j : Nat, j ≠ p → t.getD j 0 = t'.getD j 0) :
    ∃ s s', peakPicker x t (x.length : Int) = some s ∧
      peakPicker x t' (x.length : Int) = some s' ∧
      s.locations_stream.filter (fun L => decide (L ≠ p + 1)) =
        s'.locations_stream.filter (fun L => decide (L ≠ p + 1)) ∧
      (∀ L : Nat, L ≠ p + 1 → (L ∈ s.locations_stream ↔ L ∈ s'.locations_stream)) ∧
      ((p < 5 ∨ x.length ≤ p + 5) → s.writes = s'.writes) := by
  have hfil : (emitted x t x.length).filter (fun L => decide (L ≠ p + 1)) =
      (emitted x t' x.length).filter (fun L => decide (L ≠ p + 1)) := by
    rw [emitted_filter_ne, emitted_filter_ne]
    congr 1
    apply List.filter_congr
    intro idx hidx
    have hlt : idx < x.length := List.mem_range.mp hidx
    by_cases hne : (idx - 4) % 65536 ≠ p + 1
    · have hiff := peakAt_iff_off_position x t t' x.length p idx hN hdiff hlt hne
      rw [decide_eq_decide.mpr hiff]
    · simp [hne]
  have hmem : ∀ L : Nat, L ≠ p + 1 →
      (L ∈ emitted x t x.length ↔ L ∈ emitted x t' x.length) := by
    intro L hL
    have h1 : L ∈ (emitted x t x.length).filter (fun L => decide (L ≠ p + 1)) ↔
        L ∈ emitted x t x.length := by
      rw [List.mem_filter]; simp [hL]
    have h2 : L ∈ (emitted x t' x.length).filter (fun L => decide (L ≠ p + 1)) ↔
        L ∈ emitted x t' x.length := by
      rw [List.mem_filter]; simp [hL]
    rw [← h1, ← h2, hfil]
  refine ⟨_, _, peakPicker_nat x t x.length (le_refl _) (by omega),
    peakPicker_nat x t' x.length (le_refl _) (by omega), ?_, ?_, ?_⟩
  · show (locationsOf _).filter _ = (locationsOf _).filter _
    rw [locationsOf_run, locationsOf_run]
    exact hfil
  · intro L hL
    show L ∈ locationsOf _ ↔ L ∈ locationsOf _
    rw [locationsOf_run, locationsOf_run]
    exact hmem L hL
  · intro hp
    have he : emitted x t x.length = emitted x t' x.length := by
      apply emitted_congr
      intro idx hidx
      by_cases h10 : 10 ≤ idx
      · exact peakAt_of_threshold_eq x t t' idx (hdiff (idx - 5) (by omega))
      · exact ⟨fun h => absurd h.1 h10, fun h => absurd h.1 h10⟩
    show _ ++ _ = _ ++ _
    rw [he]

/-- Witness of C17: two threshold sequences that differ at position 6 only. -/
theorem C17_threshold_locality_witness :
    ∃ s s', peakPicker [0, 0, 0, 0, 0, 7, 7, 0, 0, 0, 0, 0, 0]
        [0, 0, 0, 0, 0, 0, 9, 0, 0, 0, 0, 0, 0]
        (([0, 0, 0, 0, 0, 7, 7, 0, 0, 0, 0, 0, 0] : List Int).length : Int) = some s ∧
      peakPicker [0, 0, 0, 0, 0, 7, 7, 0, 0, 0, 0, 0, 0]
        [0, 0, 0, 0, 0, 0, 0, 0, 0, 0, 0, 0, 0]
        (([0, 0, 0, 0, 0, 7, 7, 0, 0, 0, 0, 0, 0] : List Int).length : Int) = some s' ∧
      s.locations_stream.filter (fun L => decide (L ≠ 6 + 1)) =
        s'.locations_stream.filter (fun L => decide (L ≠ 6 + 1)) ∧
      (∀ L : Nat, L ≠ 6 + 1 → (L ∈ s.locations_stream ↔ L ∈ s'.locations_stream)) ∧
      ((6 < 5 ∨ ([0, 0, 0, 0, 0, 7, 7, 0, 0, 0, 0, 0, 0] : List Int).length ≤ 6 + 5) →
        s.writes = s'.writes) :=
  C17_threshold_locality [0, 0, 0, 0, 0, 7, 7, 0, 0, 0, 0, 0, 0]
    [0, 0, 0, 0, 0, 0, 9, 0, 0, 0, 0, 0, 0] [0, 0, 0, 0, 0, 0, 0, 0, 0, 0, 0, 0, 0] 6
    (by decide) (by decide) (by decide)
    (by
      intro j hj
      by_cases h13 : j < 13
      · interval_cases j <;> first | rfl | exact absurd rfl hj
      · have hge : 13 ≤ j := by omega
        rw [List.getD_eq_default _ _ (by simpa using hge),
          List.getD_eq_default _ _ (by simpa using hge)])

end PeakPicker
